import Mathlib

/-!
# Verification of the Whiplash / Facemelt AMM core

A shallow embedding, in Lean 4, of the arithmetic core of the repository's two
programs:

* `programs/whiplash` — the constant-product pool with funding accumulators,
  wide-integer helpers and the liquidation handler;
* `programs/facemelt` — the bonding-curve launch phase, graduation to an AMM,
  and the leveraged-position lifecycle over effective reserves.

Machine integers (`u64`, `u128`, `i64`) are embedded as `Nat` / `Int` with the
overflow discipline made explicit: every Rust `checked_*` operation becomes a
guarded operation in the `Except Err` monad, every `as uN` cast becomes an
explicit `% 2^N`, and Rust's value-dropping shifts become multiplication
modulo `2^128`.  The facemelt program's `Pool` state module is not present in
the source tree (only its callers are); its methods are modelled from the
specification and are marked as such in their doc comments.
-/

namespace Whiplash

/-- Largest value of a `u64`. -/
def U64MAX : Nat := 2 ^ 64 - 1

/-- Largest value of a `u128`. -/
def U128MAX : Nat := 2 ^ 128 - 1

/-- The error taxonomy shared by both programs (subset used by the embedded code). -/
inductive Err where
  | MathOverflow
  | MathUnderflow
  | ZeroSwapAmount
  | InsufficientLiquidity
  | ExcessiveLeverage
  | InvalidLeverage
  | SlippageToleranceExceeded
  | PositionNotLiquidatable
  | PositionNotClosable
  | BondingCurveNotActive
  | InsufficientTokensSold
  | InsufficientCurveSol
  | InsufficientFunds
  | InvalidBondingCurveParams
  deriving DecidableEq, Repr

/-- Rust `a.checked_add(b)` on an unsigned integer with maximum `bound`,
with the error the call site attaches via `ok_or`. -/
def cAdd (bound a b : Nat) : Except Err Nat :=
  if a + b ≤ bound then .ok (a + b) else .error .MathOverflow

/-- Rust `a.checked_mul(b)` on an unsigned integer with maximum `bound`. -/
def cMul (bound a b : Nat) : Except Err Nat :=
  if a * b ≤ bound then .ok (a * b) else .error .MathOverflow

/-- Rust `a.checked_sub(b)` on an unsigned integer; the attached error varies
by call site, so it is a parameter. -/
def cSub (a b : Nat) (e : Err) : Except Err Nat :=
  if b ≤ a then .ok (a - b) else .error e

/-- Rust `a.checked_div(b)` on an unsigned integer (fails only on division by
zero); the attached error is `MathOverflow` at every call site of the sources. -/
def cDiv (a b : Nat) : Except Err Nat :=
  if b = 0 then .error .MathOverflow else .ok (a / b)

/-- Anchor's `require!(cond, err)`. -/
def requireE (c : Prop) [Decidable c] (e : Err) : Except Err Unit :=
  if c then .ok () else .error e

/-- Ceiling division on `Nat` (`⌈a / b⌉`), used to state the rounding claims. -/
def ceilDivNat (a b : Nat) : Nat := (a + b - 1) / b


/-- Decidable equality on `Except`, so embedded calls can be evaluated on
concrete inputs by `decide`. -/
instance exceptDecEq {ε α : Type} [DecidableEq ε] [DecidableEq α] :
    DecidableEq (Except ε α) := fun a b =>
  match a, b with
  | .error e, .error f =>
    if h : e = f then .isTrue (by rw [h]) else .isFalse (by simp [h])
  | .error _, .ok _ => .isFalse (by simp)
  | .ok _, .error _ => .isFalse (by simp)
  | .ok x, .ok y =>
    if h : x = y then .isTrue (by rw [h]) else .isFalse (by simp [h])

/-- The whiplash `Pool` account (`programs/whiplash/src/state/pool.rs`),
restricted to the numerical fields the embedded operations read or write. -/
structure Pool where
  token_y_amount : Nat
  virtual_token_y_amount : Nat
  lamports : Nat
  virtual_sol_amount : Nat
  leveraged_token_y_amount : Nat
  leveraged_sol_amount : Nat
  original_k : Nat
  total_delta_k : Nat
  last_funding_timestamp : Int
  cumulative_funding_rate_index : Nat
  unrealized_funding_fees : Nat
  deriving DecidableEq, Repr

/-- `Pool::calculate_swap_x_to_y` (`pool.rs:178`): constant-product quote for a
SOL → token-Y swap over total (real + virtual) reserves, rounding the new `y`
reserve up. -/
def Pool.calculate_swap_x_to_y (p : Pool) (amount_in : Nat) : Except Err Nat := do
  if amount_in = 0 then throw .ZeroSwapAmount
  let total_x ← cAdd U64MAX p.lamports p.virtual_sol_amount
  let total_y ← cAdd U64MAX p.token_y_amount p.virtual_token_y_amount
  if total_x = 0 ∨ total_y = 0 then throw .InsufficientLiquidity
  let x_reserve_after ← cAdd U64MAX total_x amount_in
  let numerator ← cMul U128MAX total_x total_y
  let q ← cDiv numerator x_reserve_after
  let y_reserve_after ←
    if numerator % x_reserve_after ≠ 0 then cAdd U128MAX q 1 else pure q
  if U64MAX < y_reserve_after then throw .MathOverflow
  let amount_out ← cSub total_y y_reserve_after .MathOverflow
  return amount_out

/-- `Pool::calculate_swap_y_to_x_plain` (`pool.rs:393`): the plain
constant-product quote for a token-Y → SOL swap (no soft boundary), rounding
the new `x` reserve up.  A standalone associated function in the source. -/
def Pool.calculate_swap_y_to_x_plain (amount_in lamports virtual_sol
    token_y_amount virtual_token_y_amount : Nat) : Except Err Nat := do
  if amount_in = 0 then throw .ZeroSwapAmount
  let total_x ← cAdd U64MAX lamports virtual_sol
  let total_y ← cAdd U64MAX token_y_amount virtual_token_y_amount
  if total_x = 0 ∨ total_y = 0 then throw .InsufficientLiquidity
  let y_after ← cAdd U128MAX total_y amount_in
  let numerator ← cMul U128MAX total_x total_y
  let q ← cDiv numerator y_after
  let x_reserve_after ←
    if numerator % y_after ≠ 0 then cAdd U128MAX q 1 else pure q
  if U64MAX < x_reserve_after then throw .MathOverflow
  let amount_out ← cSub total_x x_reserve_after .MathOverflow
  return amount_out

/-- Fixed-point precision `1 << 32` used by the funding-rate computation. -/
def PRECISION : Nat := 2 ^ 32

/-- `Pool::update_funding_accumulators` (`pool.rs:60`): advance the cumulative
funding-rate index and the unrealized fees by the elapsed time.  The Rust
`i64` subtraction is modelled with its overflow check, and the `as u128` cast
of the (possibly negative) difference is the two's-complement embedding
`emod 2^128`. -/
def Pool.update_funding_accumulators (p : Pool) (current_timestamp : Int) :
    Except Err Pool := do
  if p.total_delta_k = 0 ∨ p.original_k = 0 then
    return { p with last_funding_timestamp := current_timestamp }
  let d := current_timestamp - p.last_funding_timestamp
  if d < -(2 ^ 63) ∨ 2 ^ 63 ≤ d then throw .MathOverflow
  let time_elapsed : Nat := (d.emod (2 ^ 128)).toNat
  if time_elapsed = 0 then return p
  requireE (p.total_delta_k < p.original_k) .ExcessiveLeverage
  let k_minus_delta_k ← cSub p.original_k p.total_delta_k .MathUnderflow
  let t1 ← cMul U128MAX p.total_delta_k PRECISION
  let ratio ← cDiv t1 k_minus_delta_k
  let t2 ← cMul U128MAX ratio ratio
  let ratio_squared ← cDiv t2 PRECISION
  let c_numerator : Nat := PRECISION / 10000
  let t3 ← cMul U128MAX c_numerator ratio_squared
  let funding_rate ← cDiv t3 PRECISION
  let total_y ← cAdd U64MAX p.token_y_amount p.virtual_token_y_amount
  requireE (0 < total_y) .InsufficientLiquidity
  let t4 ← cMul U128MAX funding_rate time_elapsed
  let delta_index ← cDiv t4 total_y
  let cum ← cAdd U128MAX p.cumulative_funding_rate_index delta_index
  let t5 ← cMul U128MAX funding_rate p.total_delta_k
  let t6 ← cMul U128MAX t5 time_elapsed
  let t7 ← cDiv t6 total_y
  let delta_fees ← cDiv t7 PRECISION
  let fees ← cAdd U128MAX p.unrealized_funding_fees delta_fees
  return { p with
    cumulative_funding_rate_index := cum,
    unrealized_funding_fees := fees,
    last_funding_timestamp := current_timestamp }

/-- The bit-by-bit loop of `Pool::div_u256_by_u128` (`pool.rs:373-386`),
processing bit indices `n-1` down to `0` of `low`.  Rust's `<<` silently drops
overflowing bits, hence the `% 2 ^ 128` on both shifted values; the `| bit`
and `| 1` are additions because the shifted values are even after the shift.
-/
def div_u256_go (d low r q : Nat) : Nat → Nat × Nat
  | 0 => (r, q)
  | n + 1 =>
    if d ≤ r * 2 % 2 ^ 128 + low / 2 ^ n % 2 then
      div_u256_go d low (r * 2 % 2 ^ 128 + low / 2 ^ n % 2 - d) (q * 2 % 2 ^ 128 + 1) n
    else
      div_u256_go d low (r * 2 % 2 ^ 128 + low / 2 ^ n % 2) (q * 2 % 2 ^ 128) n

/-- `Pool::div_u256_by_u128` (`pool.rs:362`): 256-bit by 128-bit division.
When `high = 0` the Rust code divides directly (division by zero there is a
Rust panic, outside the modelled range); when the quotient would not fit in
128 bits it saturates to `u128::MAX`; otherwise it runs the long-division
loop over all 128 bits of `low`. -/
def Pool.div_u256_by_u128 (high low divisor : Nat) : Nat :=
  if high = 0 then low / divisor
  else if divisor ≤ high then U128MAX
  else (div_u256_go divisor low high 0 128).2

/-- Fixed-point precision `1 << 64` of the funding-rate index used by the
liquidation handler (`liquidate.rs:77`). -/
def INDEX_PRECISION : Nat := 2 ^ 64

/-- The whiplash `Position` account (`programs/whiplash/src/state/position.rs`),
numerical fields. -/
structure Position where
  is_long : Bool
  collateral : Nat
  leverage : Nat
  entry_price : Nat
  size : Nat
  delta_k : Nat
  entry_funding_rate_index : Nat
  leveraged_token_amount : Nat
  nonce : Nat
  deriving DecidableEq, Repr

/-- `handle_liquidate` (`instructions/liquidate.rs:57`): advance funding,
derive the effective size and `Δk` from the index difference, compute the
expected payout and the liquidation threshold `eff_Δk·105/100 / reserve`,
check `payout ≤ threshold`, then settle: restore `⌈eff_Δk/reserve⌉` to the
pool and pay `eff_size − restore` to the liquidator.  Returns the updated
pool, the expected payout and the liquidator reward.  The two
`saturating_sub`s of the source are `Nat` truncated subtraction. -/
def handle_liquidate (pool0 : Pool) (position : Position) (current_timestamp : Int) :
    Except Err (Pool × Nat × Nat) := do
  let pool ← pool0.update_funding_accumulators current_timestamp
  let position_size_original := position.size
  let delta_k_original := position.delta_k
  let index_diff ← cSub pool.cumulative_funding_rate_index
    position.entry_funding_rate_index .MathUnderflow
  let r1 ← cMul U128MAX position_size_original index_diff
  let position_size_reduction ← cDiv r1 INDEX_PRECISION
  let position_size_u128 ← cSub position_size_original position_size_reduction
    .MathUnderflow
  let r2 ← cMul U128MAX delta_k_original index_diff
  let delta_k_reduction ← cDiv r2 INDEX_PRECISION
  let delta_k ← cSub delta_k_original delta_k_reduction .MathUnderflow
  let total_x := pool.lamports
  let total_y := pool.token_y_amount
  let pt ←
    if position.is_long then do
      let product_val ← cMul U128MAX total_x position_size_u128
      let expected_payout ←
        if product_val ≤ delta_k then pure 0
        else do
          let numerator ← cSub product_val delta_k .MathOverflow
          let denominator ← cAdd U128MAX total_y position_size_u128
          cDiv numerator denominator
      let t1 ← cMul U128MAX delta_k 105
      let t2 ← cDiv t1 100
      let threshold ← cDiv t2 total_x
      pure (expected_payout, threshold)
    else do
      let product_val ← cMul U128MAX position_size_u128 total_y
      let expected_payout ←
        if product_val ≤ delta_k then pure 0
        else do
          let numerator ← cSub product_val delta_k .MathOverflow
          let denominator ← cAdd U128MAX total_x position_size_u128
          cDiv numerator denominator
      let t1 ← cMul U128MAX delta_k 105
      let t2 ← cDiv t1 100
      let threshold ← cDiv t2 total_y
      pure (expected_payout, threshold)
  requireE (pt.1 ≤ pt.2) .PositionNotLiquidatable
  let effective_position_size_u64 ←
    if U64MAX < position_size_u128 then throw .MathOverflow
    else pure position_size_u128
  let funding_fees_paid ← cSub delta_k_original delta_k .MathUnderflow
  let restore_amount ←
    if position.is_long then do
      let a1 ← cAdd U128MAX delta_k total_x
      let a2 ← cSub a1 1 .MathUnderflow
      cDiv a2 total_x
    else do
      let a1 ← cAdd U128MAX delta_k total_y
      let a2 ← cSub a1 1 .MathUnderflow
      cDiv a2 total_y
  if U64MAX < restore_amount then throw .MathOverflow
  let liquidator_reward ← cSub effective_position_size_u64 restore_amount
    .MathUnderflow
  if position.is_long then do
    let ty1 ← cAdd U64MAX pool.token_y_amount restore_amount
    let ty2 ← cSub ty1 liquidator_reward .MathUnderflow
    let lv ← cSub pool.leveraged_token_y_amount position.leveraged_token_amount
      .MathUnderflow
    return ({ pool with
                token_y_amount := ty2, leveraged_token_y_amount := lv,
                unrealized_funding_fees :=
                  pool.unrealized_funding_fees - funding_fees_paid,
                total_delta_k := pool.total_delta_k - delta_k_original },
      pt.1, liquidator_reward)
  else do
    let l1 ← cAdd U64MAX pool.lamports restore_amount
    let l2 ← cSub l1 liquidator_reward .MathUnderflow
    let lv ← cSub pool.leveraged_sol_amount position.leveraged_token_amount
      .MathUnderflow
    return ({ pool with
                lamports := l2, leveraged_sol_amount := lv,
                unrealized_funding_fees :=
                  pool.unrealized_funding_fees - funding_fees_paid,
                total_delta_k := pool.total_delta_k - delta_k_original },
      pt.1, liquidator_reward)

end Whiplash


namespace Facemelt

open Whiplash

/-- The facemelt `Pool` account.  Its field list is taken from the
initializers and accesses in `launch_on_curve.rs`, `leverage_swap.rs`,
`close_position.rs` and `swap_on_curve.rs` (the `state/pool.rs` module itself
is not in the source tree). -/
structure Pool where
  sol_reserve : Nat
  token_reserve : Nat
  effective_sol_reserve : Nat
  effective_token_reserve : Nat
  total_delta_k_longs : Nat
  total_delta_k_shorts : Nat
  cumulative_funding_accumulator : Nat
  last_update_timestamp : Int
  ema_price : Nat
  ema_initialized : Bool
  funding_constant_c : Nat
  liquidation_divergence_threshold : Nat
  deriving DecidableEq, Repr

/-- Modelled from the spec: `PRICE_PRECISION` is the facemelt `Pool`'s price
fixed-point scale (the spec calls it an "implementation constant"; the `Pool`
state module is missing from the source tree).  Fixed here as `2^64`; every
statement about the EMA is relative to this same constant. -/
def Pool.PRICE_PRECISION : Nat := 2 ^ 64

/-- Modelled from the spec: `Pool::calculate_output` (spec §4.3), the
constant-product quote over *effective* reserves, mirroring the whiplash
implementation shape: the new opposite reserve is rounded up, output rounded
down; fails `ZeroSwapAmount` on zero input and `InsufficientLiquidity` on a
zero effective reserve.  The facemelt `Pool` state module is missing from the
source tree. -/
def Pool.calculate_output (p : Pool) (input_amount : Nat) (input_is_sol : Bool) :
    Except Err Nat := do
  if input_amount = 0 then throw .ZeroSwapAmount
  let x := p.effective_sol_reserve
  let y := p.effective_token_reserve
  if x = 0 ∨ y = 0 then throw .InsufficientLiquidity
  if input_is_sol then
    let x_after ← cAdd U64MAX x input_amount
    let k ← cMul U128MAX x y
    let q ← cDiv k x_after
    let y_after ← if k % x_after ≠ 0 then cAdd U128MAX q 1 else pure q
    if U64MAX < y_after then throw .MathOverflow
    cSub y y_after .MathOverflow
  else
    let y_after ← cAdd U64MAX y input_amount
    let k ← cMul U128MAX x y
    let q ← cDiv k y_after
    let x_after ← if k % y_after ≠ 0 then cAdd U128MAX q 1 else pure q
    if U64MAX < x_after then throw .MathOverflow
    cSub x x_after .MathOverflow

/-- Modelled from the spec: `Pool::calculate_position_remaining_factor`
(spec §4.4): `diff = accumulator − entry`; factor `0` once `diff ≥ PRECISION`,
else `PRECISION − diff`.  The facemelt `Pool` state module is missing from
the source tree. -/
def Pool.calculate_position_remaining_factor (p : Pool) (entry_acc : Nat) :
    Except Err Nat := do
  let diff ← cSub p.cumulative_funding_accumulator entry_acc .MathUnderflow
  if PRECISION ≤ diff then return 0
  return PRECISION - diff

/-- The facemelt `Position` account (`state/position.rs`), numerical fields. -/
structure Position where
  is_long : Bool
  collateral : Nat
  leverage : Nat
  size : Nat
  delta_k : Nat
  entry_funding_accumulator : Nat
  nonce : Nat
  deriving DecidableEq, Repr

/-- `handle_leverage_swap` (`instructions/leverage_swap.rs:53`), from the
point after the funding prelude (`update_funding_accumulators`, whose body is
code missing from the source tree): validation, output quote for
`total_input = amount_in·leverage/10`, `Δk` from the *collateral*-shifted
reserves, and the pool/position updates.  `is_sol_to_y` is the side derived
from the input account's owner. -/
def handle_leverage_swap (pool : Pool) (amount_in min_amount_out leverage nonce : Nat)
    (is_sol_to_y : Bool) : Except Err (Pool × Position) := do
  if amount_in = 0 then throw .ZeroSwapAmount
  requireE (10 ≤ leverage ∧ leverage ≤ 100) .InvalidLeverage
  let ti ← cMul U64MAX amount_in leverage
  let total_input ← cDiv ti 10
  let amount_out ← pool.calculate_output total_input is_sol_to_y
  let x_before := pool.effective_sol_reserve
  let y_before := pool.effective_token_reserve
  let xy ←
    if is_sol_to_y then do
      let xa ← cAdd U128MAX x_before amount_in
      let ya ← cSub y_before amount_out .MathUnderflow
      pure (xa, ya)
    else do
      let xa ← cSub x_before amount_out .MathUnderflow
      let ya ← cAdd U128MAX y_before amount_in
      pure (xa, ya)
  let k_before ← cMul U128MAX x_before y_before
  let k_after ← cMul U128MAX xy.1 xy.2
  let delta_k ← cSub k_before k_after .MathUnderflow
  requireE (min_amount_out ≤ amount_out) .SlippageToleranceExceeded
  let posn : Position := {
    is_long := is_sol_to_y
    collateral := amount_in
    leverage := leverage
    size := amount_out
    delta_k := delta_k
    entry_funding_accumulator := pool.cumulative_funding_accumulator
    nonce := nonce }
  if is_sol_to_y then
    let sr ← cAdd U64MAX pool.sol_reserve amount_in
    let esr ← cAdd U64MAX pool.effective_sol_reserve amount_in
    let etr ← cSub pool.effective_token_reserve amount_out .MathUnderflow
    let tdl ← cAdd U128MAX pool.total_delta_k_longs delta_k
    return ({ pool with
                sol_reserve := sr, effective_sol_reserve := esr,
                effective_token_reserve := etr, total_delta_k_longs := tdl }, posn)
  else
    let tr ← cAdd U64MAX pool.token_reserve amount_in
    let etr ← cAdd U64MAX pool.effective_token_reserve amount_in
    let esr ← cSub pool.effective_sol_reserve amount_out .MathUnderflow
    let tds ← cAdd U128MAX pool.total_delta_k_shorts delta_k
    return ({ pool with
                token_reserve := tr, effective_token_reserve := etr,
                effective_sol_reserve := esr, total_delta_k_shorts := tds }, posn)

/-- `handle_close_position` (`instructions/close_position.rs:53`), from the
point after the funding prelude (code missing from the source tree): the
amortized payout, the `PositionNotClosable` guard, the reserve and `Δk`
updates, and the zero-debt snap of effective to real reserves.  Returns the
updated pool and the user payout. -/
def handle_close_position (pool : Pool) (position : Position) :
    Except Err (Pool × Nat) := do
  let position_size_original := position.size
  let delta_k_original := position.delta_k
  let remaining_factor ←
    pool.calculate_position_remaining_factor position.entry_funding_accumulator
  let ps1 ← cMul U128MAX position_size_original remaining_factor
  let position_size_u128 ← cDiv ps1 PRECISION
  let dk1 ← cMul U128MAX delta_k_original remaining_factor
  let delta_k ← cDiv dk1 PRECISION
  let x_e := pool.effective_sol_reserve
  let y_e := pool.effective_token_reserve
  let pl ←
    if position.is_long then do
      let product_val ← cMul U128MAX x_e position_size_u128
      let numerator := if product_val ≤ delta_k then 0 else product_val - delta_k
      if numerator = 0 then pure ((0 : Nat), true)
      else do
        let denominator ← cAdd U128MAX y_e position_size_u128
        let payout ← cDiv numerator denominator
        pure (payout, false)
    else do
      let product_val ← cMul U128MAX position_size_u128 y_e
      let numerator := if product_val ≤ delta_k then 0 else product_val - delta_k
      if numerator = 0 then pure ((0 : Nat), true)
      else do
        let denominator ← cAdd U128MAX x_e position_size_u128
        let payout ← cDiv numerator denominator
        pure (payout, false)
  let payout_u128 := pl.1
  let is_liquidatable := pl.2
  requireE (¬is_liquidatable ∧ 0 < payout_u128) .PositionNotClosable
  if U64MAX < payout_u128 then throw .MathOverflow
  let user_output := payout_u128
  let effective_position_size_u64 ←
    if U64MAX < position_size_u128 then throw .MathOverflow
    else pure position_size_u128
  let pool1 ←
    if position.is_long then do
      let etr ← cAdd U64MAX pool.effective_token_reserve effective_position_size_u64
      let esr ← cSub pool.effective_sol_reserve user_output .MathOverflow
      let sr ← cSub pool.sol_reserve user_output .MathOverflow
      let tdl ← cSub pool.total_delta_k_longs delta_k .MathUnderflow
      let effective_k ← cMul U128MAX esr etr
      let threshold := effective_k / 10000
      let tdl2 := if tdl < threshold then 0 else tdl
      pure { pool with
               effective_token_reserve := etr, effective_sol_reserve := esr,
               sol_reserve := sr, total_delta_k_longs := tdl2 }
    else do
      let esr ← cAdd U64MAX pool.effective_sol_reserve effective_position_size_u64
      let etr ← cSub pool.effective_token_reserve user_output .MathOverflow
      let tr ← cSub pool.token_reserve user_output .MathOverflow
      let tds ← cSub pool.total_delta_k_shorts delta_k .MathUnderflow
      let effective_k ← cMul U128MAX esr etr
      let threshold := effective_k / 10000
      let tds2 := if tds < threshold then 0 else tds
      pure { pool with
               effective_sol_reserve := esr, effective_token_reserve := etr,
               token_reserve := tr, total_delta_k_shorts := tds2 }
  let pool2 :=
    if pool1.total_delta_k_longs = 0 ∧ pool1.total_delta_k_shorts = 0 then
      { pool1 with
          effective_sol_reserve := pool1.sol_reserve,
          effective_token_reserve := pool1.token_reserve }
    else pool1
  return (pool2, user_output)

/-- Bonding-curve status byte: `Active = 0`. -/
def ACTIVE : Nat := 0

/-- Bonding-curve status byte: `Graduated = 1`. -/
def GRADUATED : Nat := 1

/-- The facemelt `BondingCurve` account (`state/bonding_curve.rs`), numerical
fields. -/
structure BondingCurve where
  bonding_curve_slope_m : Nat
  tokens_sold_on_curve : Nat
  sol_raised_on_curve : Nat
  bonding_target_sol : Nat
  bonding_target_tokens_sold : Nat
  status : Nat
  deriving DecidableEq, Repr

/-- `BondingCurve::SLOPE_PRECISION = 10^18` (`bonding_curve.rs:58`). -/
def BondingCurve.SLOPE_PRECISION : Nat := 1000000000000000000

/-- `BondingCurve::is_active` (`bonding_curve.rs:65`). -/
def BondingCurve.is_active (c : BondingCurve) : Bool := c.status == ACTIVE

/-- The Newton loop of `integer_sqrt` (`bonding_curve.rs:189-192`), embedded
with explicit fuel; each iteration strictly decreases `x`, so fuel equal to
the initial `x` is enough for the loop to reach its exit condition. -/
def integer_sqrt_loop (n : Nat) : Nat → Nat → Nat
  | 0, x => x
  | fuel + 1, x =>
    if (x + n / x) / 2 < x then integer_sqrt_loop n fuel ((x + n / x) / 2)
    else x

/-- `integer_sqrt` (`bonding_curve.rs:179`): floor integer square root by
Newton's method, starting from `n/2 + 1` (infallible in the source). -/
def integer_sqrt (n : Nat) : Nat :=
  if n = 0 then 0 else integer_sqrt_loop n (n / 2 + 1) (n / 2 + 1)

/-- `BondingCurve::calculate_slope` (`bonding_curve.rs:75`):
`m = 2·target_sol·SLOPE_PRECISION / target_tokens_sold²`. -/
def BondingCurve.calculate_slope (target_sol target_tokens_sold : Nat) :
    Except Err Nat := do
  requireE (0 < target_tokens_sold) .InvalidBondingCurveParams
  let n1 ← cMul U128MAX 2 target_sol
  let numerator ← cMul U128MAX n1 BondingCurve.SLOPE_PRECISION
  let denominator ← cMul U128MAX target_tokens_sold target_tokens_sold
  let slope ← cDiv numerator denominator
  return slope

/-- `BondingCurve::calculate_tokens_out_for_sol` (`bonding_curve.rs:98`):
`q2 = isqrt(q1² + 2·sol_in·SLOPE_PRECISION/m)`, `tokens_out = q2 − q1`,
returned through an `as u64` truncation. -/
def BondingCurve.calculate_tokens_out_for_sol (c : BondingCurve) (sol_in : Nat) :
    Except Err Nat := do
  requireE (0 < sol_in) .ZeroSwapAmount
  let q1 := c.tokens_sold_on_curve
  let t1 ← cMul U128MAX 2 sol_in
  let t2 ← cMul U128MAX t1 BondingCurve.SLOPE_PRECISION
  let term ← cDiv t2 c.bonding_curve_slope_m
  let q1_squared ← cMul U128MAX q1 q1
  let sum ← cAdd U128MAX q1_squared term
  let tokens_out ← cSub (integer_sqrt sum) q1 .MathUnderflow
  return tokens_out % 2 ^ 64

/-- `BondingCurve::calculate_sol_out_for_tokens` (`bonding_curve.rs:138`):
`sol_out = m·(q1² − q2²)/2/SLOPE_PRECISION` with `q2 = q1 − tokens_in`,
required not to exceed the SOL raised on the curve. -/
def BondingCurve.calculate_sol_out_for_tokens (c : BondingCurve) (tokens_in : Nat) :
    Except Err Nat := do
  requireE (0 < tokens_in) .ZeroSwapAmount
  let q1 := c.tokens_sold_on_curve
  let q2 ← cSub q1 tokens_in .InsufficientTokensSold
  let q1_squared ← cMul U128MAX q1 q1
  let q2_squared ← cMul U128MAX q2 q2
  let diff ← cSub q1_squared q2_squared .MathUnderflow
  let s1 ← cMul U128MAX c.bonding_curve_slope_m diff
  let s2 ← cDiv s1 2
  let sol_out ← cDiv s2 BondingCurve.SLOPE_PRECISION
  requireE (sol_out ≤ c.sol_raised_on_curve) .InsufficientCurveSol
  return sol_out

/-- `graduate_to_amm` (`instructions/swap_on_curve.rs:267`): mark the curve
graduated, seed the pool with `sol_raised` and `target_tokens_sold/2` on both
real and effective reserves, stamp the timestamp, initialize the EMA at the
current price, and pass the residual refund through to the buyer. -/
def graduate_to_amm (curve : BondingCurve) (pool : Pool) (sol_refund : Nat)
    (ts : Int) : Except Err (BondingCurve × Pool × Nat) := do
  let curve1 := { curve with status := GRADUATED }
  let lp_tokens ← cDiv curve1.bonding_target_tokens_sold 2
  let sol_raised := curve1.sol_raised_on_curve
  let pool1 := { pool with
    sol_reserve := sol_raised, effective_sol_reserve := sol_raised,
    token_reserve := lp_tokens, effective_token_reserve := lp_tokens,
    last_update_timestamp := ts }
  let cp ← cMul U128MAX pool1.effective_sol_reserve Pool.PRICE_PRECISION
  let current_price ← cDiv cp pool1.effective_token_reserve
  let pool2 := { pool1 with ema_price := current_price, ema_initialized := true }
  return (curve1, pool2, sol_refund)

/-- `handle_swap_on_curve` (`instructions/swap_on_curve.rs:55`): bonding-curve
buy (with overshoot capping, back-solved `sol_spent` and refund, and the
graduation hand-off) or sell.  Returns the updated curve and pool, the
amount out, and the SOL refunded to the buyer. -/
def handle_swap_on_curve (curve : BondingCurve) (pool : Pool)
    (amount_in min_amount_out : Nat) (input_is_sol : Bool) (ts : Int) :
    Except Err (BondingCurve × Pool × Nat × Nat) := do
  requireE (0 < amount_in) .ZeroSwapAmount
  requireE (curve.is_active = true) .BondingCurveNotActive
  if input_is_sol then
    let tokens_out0 ← curve.calculate_tokens_out_for_sol amount_in
    let new_tokens_sold ← cAdd U64MAX curve.tokens_sold_on_curve tokens_out0
    let tsr ←
      if curve.bonding_target_tokens_sold < new_tokens_sold then do
        let tokens_out ← cSub curve.bonding_target_tokens_sold
          curve.tokens_sold_on_curve .MathUnderflow
        let q1 := curve.tokens_sold_on_curve
        let q2 ← cAdd U128MAX q1 tokens_out
        let q1_squared ← cMul U128MAX q1 q1
        let q2_squared ← cMul U128MAX q2 q2
        let diff ← cSub q2_squared q1_squared .MathUnderflow
        let s1 ← cMul U128MAX curve.bonding_curve_slope_m diff
        let s2 ← cDiv s1 2
        let s3 ← cDiv s2 BondingCurve.SLOPE_PRECISION
        let sol_refund ← cSub amount_in (s3 % 2 ^ 64) .MathUnderflow
        pure (tokens_out, s3 % 2 ^ 64, sol_refund)
      else
        pure (tokens_out0, amount_in, 0)
    requireE (min_amount_out ≤ tsr.1) .SlippageToleranceExceeded
    let sr ← cAdd U64MAX curve.sol_raised_on_curve tsr.2.1
    let tso ← cAdd U64MAX curve.tokens_sold_on_curve tsr.1
    let curve1 := { curve with sol_raised_on_curve := sr, tokens_sold_on_curve := tso }
    if curve1.bonding_target_sol ≤ curve1.sol_raised_on_curve ∨
        curve1.bonding_target_tokens_sold ≤ curve1.tokens_sold_on_curve then do
      let g ← graduate_to_amm curve1 pool tsr.2.2 ts
      return (g.1, g.2.1, tsr.1, g.2.2)
    else
      return (curve1, pool, tsr.1, tsr.2.2)
  else
    let sol_out ← curve.calculate_sol_out_for_tokens amount_in
    requireE (min_amount_out ≤ sol_out) .SlippageToleranceExceeded
    let tso ← cSub curve.tokens_sold_on_curve amount_in .MathUnderflow
    let sr ← cSub curve.sol_raised_on_curve sol_out .MathUnderflow
    return ({ curve with tokens_sold_on_curve := tso, sol_raised_on_curve := sr },
      pool, sol_out, 0)

/-- The state-initialization core of `handle_launch_on_curve`
(`instructions/launch_on_curve.rs:81`): parameter validation, slope
derivation, and the fresh curve and (dormant, zeroed) pool records. -/
def handle_launch_on_curve (total_supply target_sol target_tokens_sold : Nat)
    (ts : Int) : Except Err (BondingCurve × Pool) := do
  requireE (0 < total_supply) .InvalidBondingCurveParams
  requireE (0 < target_sol) .InvalidBondingCurveParams
  requireE (0 < target_tokens_sold) .InvalidBondingCurveParams
  requireE (target_tokens_sold ≤ total_supply) .InvalidBondingCurveParams
  let slope ← BondingCurve.calculate_slope target_sol target_tokens_sold
  let curve : BondingCurve := {
    bonding_curve_slope_m := slope
    tokens_sold_on_curve := 0
    sol_raised_on_curve := 0
    bonding_target_sol := target_sol
    bonding_target_tokens_sold := target_tokens_sold
    status := ACTIVE }
  let pool : Pool := {
    sol_reserve := 0
    token_reserve := 0
    effective_sol_reserve := 0
    effective_token_reserve := 0
    total_delta_k_longs := 0
    total_delta_k_shorts := 0
    cumulative_funding_accumulator := 0
    last_update_timestamp := ts
    ema_price := 0
    ema_initialized := false
    funding_constant_c := PRECISION / 10000
    liquidation_divergence_threshold := 10 }
  return (curve, pool)

end Facemelt




namespace Whiplash

/-- Reduction of `bind` on a successful `Except` computation. -/
theorem ok_bind {α β : Type} (a : α) (f : α → Except Err β) :
    ((Except.ok a : Except Err α) >>= f) = f a := rfl

/-- Reduction of `bind` on a failed `Except` computation. -/
theorem error_bind {α β : Type} (e : Err) (f : α → Except Err β) :
    ((Except.error e : Except Err α) >>= f) = Except.error e := rfl

/-- Reduction of `bind` after `pure`. -/
theorem pure_bind_ok {α β : Type} (a : α) (f : α → Except Err β) :
    ((pure a : Except Err α) >>= f) = f a := rfl

/-- `pure` into `Except` is `Except.ok`. -/
theorem pureE {α : Type} (a : α) : (pure a : Except Err α) = Except.ok a := rfl

/-- `throw` into `Except` is `Except.error`. -/
theorem throwE {α : Type} (e : Err) : (throw e : Except Err α) = Except.error e := rfl

/-- Reduction of `bind` after `throw`. -/
theorem throw_bind {α β : Type} (e : Err) (f : α → Except Err β) :
    ((throw e : Except Err α) >>= f) = Except.error e := rfl


/-- Reduction of `Except.map` on a success value. -/
theorem map_ok_eq {α β : Type} (g : α → β) (a : α) :
    Except.map g (Except.ok a : Except Err α) = Except.ok (g a) := rfl

/-- Reduction of `Except.map` on an error value. -/
theorem map_error_eq {α β : Type} (g : α → β) (e : Err) :
    Except.map g (Except.error e : Except Err α) = Except.error e := rfl

/-- Floor division plus a conditional bump equals ceiling division. -/
theorem div_round_up_eq_ceilDiv (n b : Nat) (hb : 0 < b) :
    n / b + (if n % b = 0 then 0 else 1) = ceilDivNat n b := by
  have h1 := Nat.div_add_mod n b
  have hlt : n % b < b := Nat.mod_lt _ hb
  unfold ceilDivNat
  by_cases h : n % b = 0
  · rw [if_pos h]
    rcases Nat.eq_zero_or_pos n with rfl | hn
    · rw [Nat.div_eq_of_lt (show 0 + b - 1 < b by omega), Nat.zero_div]
    · have h2 : n + b - 1 = b * (n / b) + (b - 1) := by omega
      rw [h2, Nat.mul_add_div hb, Nat.div_eq_of_lt (show b - 1 < b by omega)]
  · rw [if_neg h]
    have h2 : n + b - 1 = b * (n / b) + (n % b + b - 1) := by omega
    rw [h2, Nat.mul_add_div hb]
    have h3 : (n % b + b - 1) / b = 1 :=
      Nat.div_eq_of_lt_le (by omega) (by omega)
    omega

/-- Multiplying a ceiling quotient back by the divisor dominates the dividend. -/
theorem ceilDiv_mul_ge (n b : Nat) (hb : 0 < b) : n ≤ b * ceilDivNat n b := by
  have h1 := Nat.div_add_mod (n + b - 1) b
  have h2 : (n + b - 1) % b < b := Nat.mod_lt _ hb
  unfold ceilDivNat
  omega

/-- Ceiling division never exceeds the dividend's floor quotient plus one, and
when the divisor exceeds `n / y`-style bounds, stays below the old reserve. -/
theorem ceilDiv_le_of_mul_le (n b c : Nat) (hb : 0 < b) (h : n ≤ b * c) :
    ceilDivNat n b ≤ c := by
  unfold ceilDivNat
  rw [Nat.div_le_iff_le_mul_add_pred hb]
  omega

/-- Two `u64`-bounded factors always fit a `u128` product. -/
theorem mul_le_U128MAX {a b : Nat} (ha : a ≤ U64MAX) (hb : b ≤ U64MAX) :
    a * b ≤ U128MAX := by
  calc a * b ≤ U64MAX * U64MAX := Nat.mul_le_mul ha hb
    _ ≤ U128MAX := by norm_num [U64MAX, U128MAX]

/-- Closed form of `calculate_swap_x_to_y` on in-range inputs: the quote is
`y − ⌈x·y/(x+a)⌉` over total reserves `x`, `y`. -/
theorem calculate_swap_x_to_y_spec (p : Pool) (a : Nat)
    (ha : 0 < a)
    (hx : 0 < p.lamports + p.virtual_sol_amount)
    (hy : 0 < p.token_y_amount + p.virtual_token_y_amount)
    (hy64 : p.token_y_amount + p.virtual_token_y_amount ≤ U64MAX)
    (hxa : p.lamports + p.virtual_sol_amount + a ≤ U64MAX) :
    p.calculate_swap_x_to_y a =
      .ok ((p.token_y_amount + p.virtual_token_y_amount) -
        ceilDivNat
          ((p.lamports + p.virtual_sol_amount) *
            (p.token_y_amount + p.virtual_token_y_amount))
          (p.lamports + p.virtual_sol_amount + a)) := by
  have ha' : a ≠ 0 := by omega
  have hx64 : p.lamports + p.virtual_sol_amount ≤ U64MAX := by omega
  have hmul : (p.lamports + p.virtual_sol_amount) *
      (p.token_y_amount + p.virtual_token_y_amount) ≤ U128MAX :=
    mul_le_U128MAX hx64 hy64
  have hnz : ¬(p.lamports + p.virtual_sol_amount = 0 ∨
      p.token_y_amount + p.virtual_token_y_amount = 0) := by omega
  have hxanz : ¬(p.lamports + p.virtual_sol_amount + a = 0) := by omega
  have hceil_le : ceilDivNat
      ((p.lamports + p.virtual_sol_amount) *
        (p.token_y_amount + p.virtual_token_y_amount))
      (p.lamports + p.virtual_sol_amount + a) ≤
      p.token_y_amount + p.virtual_token_y_amount :=
    ceilDiv_le_of_mul_le _ _ _ (by omega) (Nat.mul_le_mul_right _ (by omega))
  have hq := div_round_up_eq_ceilDiv
    ((p.lamports + p.virtual_sol_amount) *
      (p.token_y_amount + p.virtual_token_y_amount))
    (p.lamports + p.virtual_sol_amount + a) (by omega)
  have hdivle : (p.lamports + p.virtual_sol_amount) *
      (p.token_y_amount + p.virtual_token_y_amount) /
      (p.lamports + p.virtual_sol_amount + a) ≤
      p.token_y_amount + p.virtual_token_y_amount := by
    split at hq <;> omega
  have hL : ¬(p.lamports + p.virtual_sol_amount = 0) := by omega
  have hY : ¬(p.token_y_amount + p.virtual_token_y_amount = 0) := by omega
  by_cases hrem : (p.lamports + p.virtual_sol_amount) *
      (p.token_y_amount + p.virtual_token_y_amount) %
      (p.lamports + p.virtual_sol_amount + a) = 0
  · rw [if_pos hrem] at hq
    have hfit : ¬(U64MAX < (p.lamports + p.virtual_sol_amount) *
        (p.token_y_amount + p.virtual_token_y_amount) /
        (p.lamports + p.virtual_sol_amount + a)) := by omega
    have hsub : (p.lamports + p.virtual_sol_amount) *
        (p.token_y_amount + p.virtual_token_y_amount) /
        (p.lamports + p.virtual_sol_amount + a) ≤
        p.token_y_amount + p.virtual_token_y_amount := hdivle
    simp only [Pool.calculate_swap_x_to_y, cAdd, cMul, cDiv, cSub,
      ok_bind, error_bind, pure_bind_ok, Except.map_ok,
      ha', hx64, hy64, hL, hY, hxa, hmul, hxanz, hrem, hfit, hsub,
      ne_eq, not_true_eq_false, not_false_eq_true,
      if_true, if_false, ite_true, ite_false, or_self, or_false, false_or]
    simp only [pureE, Except.ok.injEq]
    omega
  · rw [if_neg hrem] at hq
    have hq1 : (p.lamports + p.virtual_sol_amount) *
        (p.token_y_amount + p.virtual_token_y_amount) /
        (p.lamports + p.virtual_sol_amount + a) + 1 ≤ U128MAX := by
      have : U64MAX ≤ U128MAX := by norm_num [U64MAX, U128MAX]
      omega
    have hfit : ¬(U64MAX < (p.lamports + p.virtual_sol_amount) *
        (p.token_y_amount + p.virtual_token_y_amount) /
        (p.lamports + p.virtual_sol_amount + a) + 1) := by omega
    have hsub : (p.lamports + p.virtual_sol_amount) *
        (p.token_y_amount + p.virtual_token_y_amount) /
        (p.lamports + p.virtual_sol_amount + a) + 1 ≤
        p.token_y_amount + p.virtual_token_y_amount := by omega
    simp only [Pool.calculate_swap_x_to_y, cAdd, cMul, cDiv, cSub,
      ok_bind, error_bind, pure_bind_ok, Except.map_ok,
      ha', hx64, hy64, hL, hY, hxa, hmul, hxanz, hrem, hq1, hfit, hsub,
      ne_eq, not_true_eq_false, not_false_eq_true,
      if_true, if_false, ite_true, ite_false, or_self, or_false, false_or]
    simp only [pureE, Except.ok.injEq]
    omega

/-- Closed form of `calculate_swap_y_to_x_plain` on in-range inputs: the quote
is `x − ⌈x·y/(y+a)⌉` over total reserves `x`, `y`. -/
theorem calculate_swap_y_to_x_plain_spec (a lamports virtual_sol token_y virtual_token_y : Nat)
    (ha : 0 < a) (ha64 : a ≤ U64MAX)
    (hx : 0 < lamports + virtual_sol)
    (hy : 0 < token_y + virtual_token_y)
    (hx64 : lamports + virtual_sol ≤ U64MAX)
    (hy64 : token_y + virtual_token_y ≤ U64MAX) :
    Pool.calculate_swap_y_to_x_plain a lamports virtual_sol token_y virtual_token_y =
      .ok ((lamports + virtual_sol) -
        ceilDivNat ((lamports + virtual_sol) * (token_y + virtual_token_y))
          (token_y + virtual_token_y + a)) := by
  have ha' : a ≠ 0 := by omega
  have hmul : (lamports + virtual_sol) * (token_y + virtual_token_y) ≤ U128MAX :=
    mul_le_U128MAX hx64 hy64
  have hya : token_y + virtual_token_y + a ≤ U128MAX := by
    have : U64MAX + U64MAX ≤ U128MAX := by norm_num [U64MAX, U128MAX]
    omega
  have hyanz : ¬(token_y + virtual_token_y + a = 0) := by omega
  have hceil_le : ceilDivNat ((lamports + virtual_sol) * (token_y + virtual_token_y))
      (token_y + virtual_token_y + a) ≤ lamports + virtual_sol := by
    refine ceilDiv_le_of_mul_le _ _ _ (by omega) ?_
    calc (lamports + virtual_sol) * (token_y + virtual_token_y)
        = (token_y + virtual_token_y) * (lamports + virtual_sol) := Nat.mul_comm _ _
      _ ≤ (token_y + virtual_token_y + a) * (lamports + virtual_sol) :=
          Nat.mul_le_mul_right _ (by omega)
  have hq := div_round_up_eq_ceilDiv
    ((lamports + virtual_sol) * (token_y + virtual_token_y))
    (token_y + virtual_token_y + a) (by omega)
  have hdivle : (lamports + virtual_sol) * (token_y + virtual_token_y) /
      (token_y + virtual_token_y + a) ≤ lamports + virtual_sol := by
    split at hq <;> omega
  have hL : ¬(lamports + virtual_sol = 0) := by omega
  have hY : ¬(token_y + virtual_token_y = 0) := by omega
  by_cases hrem : (lamports + virtual_sol) * (token_y + virtual_token_y) %
      (token_y + virtual_token_y + a) = 0
  · rw [if_pos hrem] at hq
    have hfit : ¬(U64MAX < (lamports + virtual_sol) * (token_y + virtual_token_y) /
        (token_y + virtual_token_y + a)) := by omega
    have hsub : (lamports + virtual_sol) * (token_y + virtual_token_y) /
        (token_y + virtual_token_y + a) ≤ lamports + virtual_sol := hdivle
    simp only [Pool.calculate_swap_y_to_x_plain, cAdd, cMul, cDiv, cSub,
      ok_bind, error_bind, pure_bind_ok, Except.map_ok,
      ha', hx64, hy64, hL, hY, hya, hmul, hyanz, hrem, hfit, hsub,
      ne_eq, not_true_eq_false, not_false_eq_true,
      if_true, if_false, ite_true, ite_false, or_self, or_false, false_or]
    simp only [pureE, Except.ok.injEq]
    omega
  · rw [if_neg hrem] at hq
    have hq1 : (lamports + virtual_sol) * (token_y + virtual_token_y) /
        (token_y + virtual_token_y + a) + 1 ≤ U128MAX := by
      have : U64MAX ≤ U128MAX := by norm_num [U64MAX, U128MAX]
      omega
    have hfit : ¬(U64MAX < (lamports + virtual_sol) * (token_y + virtual_token_y) /
        (token_y + virtual_token_y + a) + 1) := by omega
    have hsub : (lamports + virtual_sol) * (token_y + virtual_token_y) /
        (token_y + virtual_token_y + a) + 1 ≤ lamports + virtual_sol := by omega
    simp only [Pool.calculate_swap_y_to_x_plain, cAdd, cMul, cDiv, cSub,
      ok_bind, error_bind, pure_bind_ok, Except.map_ok,
      ha', hx64, hy64, hL, hY, hya, hmul, hyanz, hrem, hq1, hfit, hsub,
      ne_eq, not_true_eq_false, not_false_eq_true,
      if_true, if_false, ite_true, ite_false, or_self, or_false, false_or]
    simp only [pureE, Except.ok.injEq]
    omega

/-- C3: for strictly positive total reserves `x`, `y` and input `a > 0`, the
SOL-input spot quote is `y − ⌈x·y/(x+a)⌉` and the token-input spot quote is
`x − ⌈x·y/(y+a)⌉`, so the post-swap product of reserves is at least the
pre-swap product in both directions. -/
theorem spot_swap_quote_is_ceiling_and_protects_k (p : Pool) (a : Nat)
    (ha : 0 < a) (ha64 : a ≤ U64MAX)
    (hx : 0 < p.lamports + p.virtual_sol_amount)
    (hy : 0 < p.token_y_amount + p.virtual_token_y_amount)
    (hy64 : p.token_y_amount + p.virtual_token_y_amount ≤ U64MAX)
    (hxa : p.lamports + p.virtual_sol_amount + a ≤ U64MAX) :
    ∃ out_xy out_yx,
      p.calculate_swap_x_to_y a = .ok out_xy ∧
      out_xy = (p.token_y_amount + p.virtual_token_y_amount) -
        ceilDivNat ((p.lamports + p.virtual_sol_amount) *
          (p.token_y_amount + p.virtual_token_y_amount))
          (p.lamports + p.virtual_sol_amount + a) ∧
      (p.lamports + p.virtual_sol_amount) *
        (p.token_y_amount + p.virtual_token_y_amount) ≤
        (p.lamports + p.virtual_sol_amount + a) *
          ((p.token_y_amount + p.virtual_token_y_amount) - out_xy) ∧
      Pool.calculate_swap_y_to_x_plain a p.lamports p.virtual_sol_amount
        p.token_y_amount p.virtual_token_y_amount = .ok out_yx ∧
      out_yx = (p.lamports + p.virtual_sol_amount) -
        ceilDivNat ((p.lamports + p.virtual_sol_amount) *
          (p.token_y_amount + p.virtual_token_y_amount))
          (p.token_y_amount + p.virtual_token_y_amount + a) ∧
      (p.lamports + p.virtual_sol_amount) *
        (p.token_y_amount + p.virtual_token_y_amount) ≤
        (p.token_y_amount + p.virtual_token_y_amount + a) *
          ((p.lamports + p.virtual_sol_amount) - out_yx) := by
  set x := p.lamports + p.virtual_sol_amount with hxd
  set y := p.token_y_amount + p.virtual_token_y_amount with hyd
  have hx64 : x ≤ U64MAX := by omega
  refine ⟨_, _, calculate_swap_x_to_y_spec p a ha hx hy hy64 hxa, rfl, ?_,
    calculate_swap_y_to_x_plain_spec a p.lamports p.virtual_sol_amount
      p.token_y_amount p.virtual_token_y_amount ha ha64 hx hy hx64 hy64, rfl, ?_⟩
  · have hcle : ceilDivNat (x * y) (x + a) ≤ y :=
      ceilDiv_le_of_mul_le _ _ _ (by omega) (Nat.mul_le_mul_right _ (by omega))
    have hge : x * y ≤ (x + a) * ceilDivNat (x * y) (x + a) :=
      ceilDiv_mul_ge _ _ (by omega)
    have : y - (y - ceilDivNat (x * y) (x + a)) = ceilDivNat (x * y) (x + a) := by
      omega
    rw [this]
    exact hge
  · have hcle : ceilDivNat (x * y) (y + a) ≤ x := by
      refine ceilDiv_le_of_mul_le _ _ _ (by omega) ?_
      calc x * y = y * x := Nat.mul_comm _ _
        _ ≤ (y + a) * x := Nat.mul_le_mul_right _ (by omega)
    have hge : x * y ≤ (y + a) * ceilDivNat (x * y) (y + a) :=
      ceilDiv_mul_ge _ _ (by omega)
    have : x - (x - ceilDivNat (x * y) (y + a)) = ceilDivNat (x * y) (y + a) := by
      omega
    rw [this]
    exact hge

/-- Witness for C3 at scenario S2: pool `(x, y) = (1000, 1000)`, `a = 100`;
the quote is `90 = 1000 − ⌈10^6/1100⌉` and `1100 · 910 ≥ 10^6`. -/
theorem spot_swap_quote_is_ceiling_and_protects_k_witness :
    ∃ out_xy out_yx,
      Pool.calculate_swap_x_to_y
        { token_y_amount := 1000, virtual_token_y_amount := 0, lamports := 1000,
          virtual_sol_amount := 0, leveraged_token_y_amount := 0,
          leveraged_sol_amount := 0, original_k := 1000000, total_delta_k := 0,
          last_funding_timestamp := 0, cumulative_funding_rate_index := 0,
          unrealized_funding_fees := 0 } 100 = .ok out_xy ∧
      out_xy = (1000 + 0) - ceilDivNat ((1000 + 0) * (1000 + 0)) (1000 + 0 + 100) ∧
      (1000 + 0) * (1000 + 0) ≤ (1000 + 0 + 100) * ((1000 + 0) - out_xy) ∧
      Pool.calculate_swap_y_to_x_plain 100 1000 0 1000 0 = .ok out_yx ∧
      out_yx = (1000 + 0) - ceilDivNat ((1000 + 0) * (1000 + 0)) (1000 + 0 + 100) ∧
      (1000 + 0) * (1000 + 0) ≤ (1000 + 0 + 100) * ((1000 + 0) - out_yx) :=
  spot_swap_quote_is_ceiling_and_protects_k
    { token_y_amount := 1000, virtual_token_y_amount := 0, lamports := 1000,
      virtual_sol_amount := 0, leveraged_token_y_amount := 0,
      leveraged_sol_amount := 0, original_k := 1000000, total_delta_k := 0,
      last_funding_timestamp := 0, cumulative_funding_rate_index := 0,
      unrealized_funding_fees := 0 } 100
    (by decide) (by norm_num [U64MAX]) (by decide) (by decide)
    (by norm_num [U64MAX]) (by norm_num [U64MAX])

/-- C5: a successful `update_funding_accumulators` never decreases the
cumulative funding accumulator, and when the outstanding `total_delta_k` is
zero it only sets `last_funding_timestamp` to the current time, leaving every
other field unchanged. -/
theorem funding_update_monotone_and_zero_debt_noop (p : Pool) (ts : Int) (p' : Pool)
    (h : p.update_funding_accumulators ts = .ok p') :
    p.cumulative_funding_rate_index ≤ p'.cumulative_funding_rate_index ∧
    (p.total_delta_k = 0 → p' = { p with last_funding_timestamp := ts }) := by
  unfold Pool.update_funding_accumulators at h
  simp only [cAdd, cMul, cDiv, cSub, requireE, ok_bind, error_bind,
    pure_bind_ok, pureE, throwE, throw_bind] at h
  split at h
  · rename_i hz
    injection h with h
    subst h
    exact ⟨le_refl _, fun _ => rfl⟩
  · rename_i hz
    have hnz : p.total_delta_k ≠ 0 := by tauto
    refine ⟨?_, fun hc => absurd hc hnz⟩
    iterate 30
      all_goals (first
        | exact Except.noConfusion h
        | (split at h)
        | (simp only [ok_bind, error_bind, pure_bind_ok, pureE, throwE,
            throw_bind] at h)
        | skip)
    all_goals (injection h with h; subst h)
    all_goals (first
      | exact le_refl _
      | (dsimp only; exact Nat.le_add_right _ _))

/-- Witness for C5: on a pool with no outstanding debt, the update at time 5
just stamps the timestamp. -/
theorem funding_update_monotone_and_zero_debt_noop_witness :
    (Pool.mk 0 0 0 0 0 0 0 0 0 0 0).cumulative_funding_rate_index ≤
      (Pool.mk 0 0 0 0 0 0 0 0 5 0 0).cumulative_funding_rate_index ∧
    ((Pool.mk 0 0 0 0 0 0 0 0 0 0 0).total_delta_k = 0 →
      Pool.mk 0 0 0 0 0 0 0 0 5 0 0 =
        { Pool.mk 0 0 0 0 0 0 0 0 0 0 0 with last_funding_timestamp := 5 }) :=
  funding_update_monotone_and_zero_debt_noop (Pool.mk 0 0 0 0 0 0 0 0 0 0 0) 5
    (Pool.mk 0 0 0 0 0 0 0 0 5 0 0) rfl

/-- Correctness of the long-division loop in the wrap-free regime
`d ≤ 2^127`: starting from remainder `r < d` and accumulator `q`, processing
the low `n` bits yields the Euclidean quotient and remainder of
`r·2^n + low mod 2^n`. -/
theorem div_u256_go_spec (d low : Nat) (hd : 0 < d) (hdle : d ≤ 2 ^ 127) :
    ∀ n r q, r < d →
      q * 2 ^ n + (r * 2 ^ n + low % 2 ^ n) / d < 2 ^ 128 →
      div_u256_go d low r q n =
        ((r * 2 ^ n + low % 2 ^ n) % d,
          q * 2 ^ n + (r * 2 ^ n + low % 2 ^ n) / d) := by
  intro n
  induction n with
  | zero =>
    intro r q hr _
    simp [div_u256_go, Nat.mod_one, Nat.mod_eq_of_lt hr, Nat.div_eq_of_lt hr]
  | succ n ih =>
    intro r q hr hq
    have h128 : (2 : Nat) ^ 128 = 2 ^ 127 * 2 := by rw [← pow_succ]
    have hb : low / 2 ^ n % 2 ≤ 1 := Nat.le_of_lt_succ (Nat.mod_lt _ (by omega))
    have hrw : r * 2 % 2 ^ 128 = r * 2 := Nat.mod_eq_of_lt (by omega)
    have h2n : (2 : Nat) ≤ 2 ^ (n + 1) := by
      calc (2 : Nat) = 2 ^ 1 := (pow_one 2).symm
        _ ≤ 2 ^ (n + 1) := Nat.pow_le_pow_right (by omega) (by omega)
    have hq2 : q * 2 ≤ q * 2 ^ (n + 1) := Nat.mul_le_mul_left q h2n
    have hq3 : q * 2 ^ (n + 1) < 2 ^ 128 :=
      Nat.lt_of_le_of_lt (Nat.le_add_right _ _) hq
    have hqw : q * 2 % 2 ^ 128 = q * 2 := Nat.mod_eq_of_lt (by omega)
    have hpow : (2 : Nat) ^ (n + 1) = 2 ^ n * 2 := pow_succ 2 n
    have hdecomp : low % 2 ^ (n + 1) = low % 2 ^ n + 2 ^ n * (low / 2 ^ n % 2) := by
      rw [hpow]
      exact Nat.mod_mul
    set A := (2 : Nat) ^ n with hA
    set b := low / 2 ^ n % 2 with hbdef
    have hv : r * 2 ^ (n + 1) + low % 2 ^ (n + 1) =
        (r * 2 + b) * A + low % A := by
      rw [hdecomp, hpow]
      ring
    simp only [div_u256_go, hrw, hqw]
    by_cases hcase : d ≤ r * 2 + b
    · rw [if_pos hcase]
      have hsplit : (r * 2 + b) * A = (r * 2 + b - d) * A + d * A := by
        rw [Nat.sub_mul]
        have : d * A ≤ (r * 2 + b) * A := Nat.mul_le_mul_right A hcase
        omega
      have hvx : r * 2 ^ (n + 1) + low % 2 ^ (n + 1) =
          (r * 2 + b - d) * A + low % A + d * A := by omega
      have hqd2 : (r * 2 ^ (n + 1) + low % 2 ^ (n + 1)) / d =
          ((r * 2 + b - d) * A + low % A) / d + A := by
        rw [hvx]
        exact Nat.add_mul_div_left _ _ hd
      have hmd2 : (r * 2 ^ (n + 1) + low % 2 ^ (n + 1)) % d =
          ((r * 2 + b - d) * A + low % A) % d := by
        rw [hvx]
        exact Nat.add_mul_mod_self_left _ _ _
      have e1 : (q * 2 + 1) * A = q * 2 * A + A := by ring
      have hqexp : q * 2 ^ (n + 1) = q * 2 * A := by rw [hpow]; ring
      have hih := ih (r * 2 + b - d) (q * 2 + 1) (by omega) (by omega)
      rw [hih]
      refine Prod.ext ?_ ?_ <;> dsimp only <;> omega
    · rw [if_neg hcase]
      push_neg at hcase
      have hvdiv : (r * 2 ^ (n + 1) + low % 2 ^ (n + 1)) / d =
          ((r * 2 + b) * A + low % A) / d := by rw [hv]
      have hvmod : (r * 2 ^ (n + 1) + low % 2 ^ (n + 1)) % d =
          ((r * 2 + b) * A + low % A) % d := by rw [hv]
      have hqexp : q * 2 ^ (n + 1) = q * 2 * A := by rw [hpow]; ring
      have hih := ih (r * 2 + b) (q * 2) (by omega) (by omega)
      rw [hih]
      refine Prod.ext ?_ ?_ <;> dsimp only <;> omega

/-- C10 (amended): for `0 < divisor ≤ 2^127` and `high < divisor`, the helper
returns exactly `⌊(high·2^128 + low) / divisor⌋`; and whenever
`high ≥ divisor` it saturates to `u128::MAX`.  (For `divisor > 2^127` the
shifted remainder can wrap and the result can be wrong — see the
counterexample.) -/
theorem div_u256_by_u128_exact_below_half (high low divisor : Nat)
    (hd : 0 < divisor) (hdle : divisor ≤ 2 ^ 127) (hh : high < divisor)
    (hlow : low < 2 ^ 128) :
    Pool.div_u256_by_u128 high low divisor = (high * 2 ^ 128 + low) / divisor ∧
    ∀ h2 l2, divisor ≤ h2 → Pool.div_u256_by_u128 h2 l2 divisor = U128MAX := by
  constructor
  · unfold Pool.div_u256_by_u128
    by_cases hz : high = 0
    · rw [if_pos hz]
      subst hz
      simp
    · rw [if_neg hz, if_neg (by omega)]
      have hqlt : 0 * 2 ^ 128 + (high * 2 ^ 128 + low % 2 ^ 128) / divisor <
          2 ^ 128 := by
        rw [Nat.mod_eq_of_lt hlow, Nat.zero_mul, Nat.zero_add]
        have hlt : high * 2 ^ 128 + low < 2 ^ 128 * divisor := by
          calc high * 2 ^ 128 + low < high * 2 ^ 128 + 2 ^ 128 := by omega
            _ = 2 ^ 128 * (high + 1) := by ring
            _ ≤ 2 ^ 128 * divisor := Nat.mul_le_mul_left _ (by omega)
        exact (Nat.div_lt_iff_lt_mul hd).2 (by omega)
      have h := div_u256_go_spec divisor low hd hdle 128 high 0 hh hqlt
      rw [h]
      dsimp only
      rw [Nat.mod_eq_of_lt hlow, Nat.zero_mul, Nat.zero_add]
  · intro h2 l2 hge
    unfold Pool.div_u256_by_u128
    rw [if_neg (by omega), if_pos hge]

set_option maxRecDepth 4000 in
/-- Counterexample for C10 as stated: at `high = 1`, `low = 0`,
`divisor = 2^127 + 1` the conditions `divisor > 0` and `high < divisor` hold,
the true quotient is `1`, but the shifted remainder wraps in `u128` and the
helper returns `0`. -/
theorem div_u256_by_u128_wrap_counterexample :
    0 < 2 ^ 127 + 1 ∧ 1 < 2 ^ 127 + 1 ∧
    Pool.div_u256_by_u128 1 0 (2 ^ 127 + 1) = 0 ∧
    (1 * 2 ^ 128 + 0) / (2 ^ 127 + 1) = 1 := by
  refine ⟨by norm_num, by norm_num, by decide, by norm_num⟩

/-- Witness for the amended C10 at `high = 3`, `low = 7`, `divisor = 10`. -/
theorem div_u256_by_u128_exact_below_half_witness :
    Pool.div_u256_by_u128 3 7 10 = (3 * 2 ^ 128 + 7) / 10 ∧
    ∀ h2 l2, 10 ≤ h2 → Pool.div_u256_by_u128 h2 l2 10 = U128MAX :=
  div_u256_by_u128_exact_below_half 3 7 10 (by norm_num) (by norm_num)
    (by norm_num) (by norm_num)

end Whiplash

namespace Facemelt

open Whiplash

/-- C1 (amended): a successful long `leverage_swap` quotes the output for
`total_input = amount_in·leverage/10` but shifts reserves by the *collateral*
`amount_in`: it stores `Δk = x·y − (x+amount_in)·(y−out)` and updates the
effective reserves to exactly `(x+amount_in, y−out)`, adding `Δk` to the
longs total and the collateral to the real SOL reserve. -/
theorem handle_leverage_swap_long_spec
    (pool : Pool) (a mo lev nonce out : Nat)
    (ha : ¬(a = 0)) (hlev : 10 ≤ lev ∧ lev ≤ 100)
    (hmul : a * lev ≤ U64MAX)
    (hout : pool.calculate_output (a * lev / 10) true = .ok out)
    (hx64 : pool.effective_sol_reserve + a ≤ U64MAX)
    (hy64 : pool.effective_token_reserve ≤ U64MAX)
    (hsr : pool.sol_reserve + a ≤ U64MAX)
    (hety : out ≤ pool.effective_token_reserve)
    (hk : (pool.effective_sol_reserve + a) * (pool.effective_token_reserve - out) ≤
      pool.effective_sol_reserve * pool.effective_token_reserve)
    (hmo : mo ≤ out)
    (htd : pool.total_delta_k_longs +
      (pool.effective_sol_reserve * pool.effective_token_reserve -
        (pool.effective_sol_reserve + a) * (pool.effective_token_reserve - out)) ≤
      U128MAX) :
    handle_leverage_swap pool a mo lev nonce true =
      .ok ({ pool with
              sol_reserve := pool.sol_reserve + a,
              effective_sol_reserve := pool.effective_sol_reserve + a,
              effective_token_reserve := pool.effective_token_reserve - out,
              total_delta_k_longs := pool.total_delta_k_longs +
                (pool.effective_sol_reserve * pool.effective_token_reserve -
                  (pool.effective_sol_reserve + a) *
                    (pool.effective_token_reserve - out)) },
            { is_long := true
              collateral := a
              leverage := lev
              size := out
              delta_k := pool.effective_sol_reserve * pool.effective_token_reserve -
                (pool.effective_sol_reserve + a) * (pool.effective_token_reserve - out)
              entry_funding_accumulator := pool.cumulative_funding_accumulator
              nonce := nonce }) := by
  have h10 : ¬((10 : Nat) = 0) := by norm_num
  have hx128 : pool.effective_sol_reserve + a ≤ U128MAX := by
    have : U64MAX ≤ U128MAX := by norm_num [U64MAX, U128MAX]
    omega
  have hxx64 : pool.effective_sol_reserve ≤ U64MAX := by omega
  have hkb : pool.effective_sol_reserve * pool.effective_token_reserve ≤ U128MAX :=
    mul_le_U128MAX hxx64 hy64
  have hyo64 : pool.effective_token_reserve - out ≤ U64MAX := by omega
  have hka : (pool.effective_sol_reserve + a) *
      (pool.effective_token_reserve - out) ≤ U128MAX :=
    mul_le_U128MAX hx64 hyo64
  simp only [handle_leverage_swap, cAdd, cMul, cDiv, cSub, requireE,
    ok_bind, error_bind, pure_bind_ok, pureE, throwE, throw_bind,
    ha, h10, hlev, hmul, hout, hx64, hx128, hy64, hsr, hety, hk, hmo, htd,
    hkb, hka, hxx64, hyo64,
    ne_eq, not_true_eq_false, not_false_eq_true, and_self,
    if_true, if_false, ite_true, ite_false]


/-- Witness for the amended C1 at scenario S3: `x = y = 10000`,
`amount_in = 100`, `leverage = 25` (so `total_input = 250`, `out = 243`);
the stored `Δk` is `10^8 − 10100·9757 = 1454300` and the effective reserves
become `(10100, 9757)`. -/
theorem handle_leverage_swap_long_spec_witness :
    handle_leverage_swap ⟨10000, 10000, 10000, 10000, 0, 0, 0, 0, 0, false, 429496, 10⟩
        100 0 25 7 true =
      .ok (⟨10100, 10000, 10100, 9757, 1454300, 0, 0, 0, 0, false, 429496, 10⟩,
        ⟨true, 100, 25, 243, 1454300, 0, 7⟩) := by
  have h := handle_leverage_swap_long_spec
    ⟨10000, 10000, 10000, 10000, 0, 0, 0, 0, 0, false, 429496, 10⟩ 100 0 25 7 243
    (by decide) (by decide) (by decide) (by decide) (by decide) (by decide)
    (by decide) (by decide) (by decide) (by decide) (by decide)
  exact h.trans (by decide)

/-- Counterexample for C1 as stated: at scenario S3 the handler updates the
effective SOL reserve to `x + amount_in = 10100`, not
`x + total_input = 10250` as the claim (and S3) demand. -/
theorem leverage_swap_shifts_by_collateral_counterexample :
    (handle_leverage_swap ⟨10000, 10000, 10000, 10000, 0, 0, 0, 0, 0, false, 429496, 10⟩
        100 0 25 7 true).map (fun r => r.1.effective_sol_reserve) = .ok 10100 ∧
    (10100 : Nat) ≠ 10000 + 100 * 25 / 10 := by
  exact ⟨by decide, by norm_num⟩


/-- The modelled remaining factor never exceeds `PRECISION`. -/
theorem remaining_factor_le_PRECISION (p : Pool) (e f : Nat)
    (hf : p.calculate_position_remaining_factor e = .ok f) : f ≤ PRECISION := by
  unfold Pool.calculate_position_remaining_factor at hf
  simp only [cSub] at hf
  split at hf
  · simp only [ok_bind, pure_bind_ok, pureE] at hf
    split at hf
    · injection hf with hf
      omega
    · injection hf with hf
      omega
  · exact Except.noConfusion hf

set_option maxHeartbeats 1600000 in
/-- C6 (amended): with `f` the remaining factor, `s = size·f/PRECISION`,
`dk = Δk·f/PRECISION`, `num` the side's payout numerator product and `den`
its denominator, `close_position` fails with `PositionNotClosable` exactly
when the floor payout `(num − dk)/den` is zero — that is, when `num ≤ dk`
*or* the positive numerator is still below the denominator — and on success
the user payout is exactly `(num − dk)/den`. -/
theorem handle_close_position_payout_characterization
    (pool : Pool) (pos : Position) (f s dk num den : Nat)
    (hf : pool.calculate_position_remaining_factor pos.entry_funding_accumulator =
      .ok f)
    (hs : s = pos.size * f / PRECISION)
    (hdk : dk = pos.delta_k * f / PRECISION)
    (hnum : num = if pos.is_long then pool.effective_sol_reserve * s
      else s * pool.effective_token_reserve)
    (hden : den = if pos.is_long then pool.effective_token_reserve + s
      else pool.effective_sol_reserve + s)
    (hs128 : pos.size * f ≤ U128MAX)
    (hdk128 : pos.delta_k * f ≤ U128MAX)
    (hx64 : pool.effective_sol_reserve ≤ U64MAX)
    (hy64 : pool.effective_token_reserve ≤ U64MAX)
    (hsize64 : pos.size ≤ U64MAX)
    (hupd : if pos.is_long then
        pool.effective_token_reserve + s ≤ U64MAX ∧
        (num - dk) / den ≤ pool.sol_reserve ∧ dk ≤ pool.total_delta_k_longs
      else
        pool.effective_sol_reserve + s ≤ U64MAX ∧
        (num - dk) / den ≤ pool.token_reserve ∧ dk ≤ pool.total_delta_k_shorts) :
    (handle_close_position pool pos = .error .PositionNotClosable ↔
      num ≤ dk ∨ (num - dk) / den = 0) ∧
    (dk < num → 0 < (num - dk) / den →
      Except.map (fun r => r.2) (handle_close_position pool pos) =
        .ok ((num - dk) / den)) := by
  have hfP : f ≤ PRECISION := remaining_factor_le_PRECISION _ _ _ hf
  have hP0 : ¬(PRECISION = 0) := by norm_num [PRECISION]
  have hsle : s ≤ pos.size := by
    rw [hs]
    calc pos.size * f / PRECISION ≤ pos.size * PRECISION / PRECISION :=
        Nat.div_le_div_right (Nat.mul_le_mul_left _ hfP)
      _ = pos.size := Nat.mul_div_cancel _ (by norm_num [PRECISION])
  have hs64 : s ≤ U64MAX := le_trans hsle hsize64
  subst hs hdk hnum hden
  by_cases hL : pos.is_long = true
  · simp only [hL, if_true] at hupd ⊢
    obtain ⟨hupd1, hupd2, hupd3⟩ := hupd
    have hmul1 : pool.effective_sol_reserve * (pos.size * f / PRECISION) ≤
        U128MAX := mul_le_U128MAX hx64 hs64
    by_cases h1 : pool.effective_sol_reserve * (pos.size * f / PRECISION) ≤
        pos.delta_k * f / PRECISION
    · have hres : handle_close_position pool pos = .error .PositionNotClosable := by
        simp [handle_close_position, hf, cAdd, cMul, cDiv, cSub, requireE,
          ok_bind, error_bind, pure_bind_ok, pureE, throwE, throw_bind,
          hP0, hs128, hdk128, hL, h1, hmul1]
      rw [hres]
      exact ⟨by simp [h1],
        fun hcon _ => absurd (Nat.lt_of_lt_of_le hcon h1) (Nat.lt_irrefl _)⟩
    · push_neg at h1
      have hSpos : 0 < pos.size * f / PRECISION := by
        rcases Nat.eq_zero_or_pos (pos.size * f / PRECISION) with h0 | h0
        · rw [h0, Nat.mul_zero] at h1
          exact absurd h1 (Nat.not_lt_zero _)
        · exact h0
      have hnum0 : ¬(pool.effective_sol_reserve * (pos.size * f / PRECISION) -
          pos.delta_k * f / PRECISION = 0) := Nat.sub_ne_zero_of_lt h1
      have hden128 : pool.effective_token_reserve + pos.size * f / PRECISION ≤
          U128MAX := by
        have : U64MAX ≤ U128MAX := by norm_num [U64MAX, U128MAX]
        omega
      have hdennz : ¬(pool.effective_token_reserve + pos.size * f / PRECISION = 0) := by
        omega
      have hpayX : (pool.effective_sol_reserve * (pos.size * f / PRECISION) -
          pos.delta_k * f / PRECISION) /
          (pool.effective_token_reserve + pos.size * f / PRECISION) ≤
          pool.effective_sol_reserve := by
        refine Nat.div_le_of_le_mul ?_
        calc pool.effective_sol_reserve * (pos.size * f / PRECISION) -
            pos.delta_k * f / PRECISION ≤
            pool.effective_sol_reserve * (pos.size * f / PRECISION) :=
            Nat.sub_le _ _
          _ ≤ pool.effective_sol_reserve *
              (pool.effective_token_reserve + pos.size * f / PRECISION) :=
            Nat.mul_le_mul_left _ (Nat.le_add_left _ _)
          _ = (pool.effective_token_reserve + pos.size * f / PRECISION) *
              pool.effective_sol_reserve := Nat.mul_comm _ _
      by_cases h2 : (pool.effective_sol_reserve * (pos.size * f / PRECISION) -
          pos.delta_k * f / PRECISION) /
          (pool.effective_token_reserve + pos.size * f / PRECISION) = 0
      · have hres : handle_close_position pool pos = .error .PositionNotClosable := by
          simp [handle_close_position, hf, cAdd, cMul, cDiv, cSub, requireE,
            ok_bind, error_bind, pure_bind_ok, pureE, throwE, throw_bind,
            hP0, hs128, hdk128, hL, hmul1, hden128, hdennz, h2,
            if_neg (Nat.not_le.mpr h1)]
        rw [hres]
        exact ⟨by simp [h2], fun _ hcon => absurd h2 (Nat.pos_iff_ne_zero.mp hcon)⟩
      · have hpaypos : 0 < (pool.effective_sol_reserve *
            (pos.size * f / PRECISION) - pos.delta_k * f / PRECISION) /
            (pool.effective_token_reserve + pos.size * f / PRECISION) :=
          Nat.pos_of_ne_zero h2
        have hpay64 : ¬(U64MAX < (pool.effective_sol_reserve *
            (pos.size * f / PRECISION) - pos.delta_k * f / PRECISION) /
            (pool.effective_token_reserve + pos.size * f / PRECISION)) :=
          Nat.not_lt.mpr (le_trans hpayX hx64)
        have hS64n : ¬(U64MAX < pos.size * f / PRECISION) := Nat.not_lt.mpr hs64
        have hkmul : (pool.effective_sol_reserve -
            (pool.effective_sol_reserve * (pos.size * f / PRECISION) -
              pos.delta_k * f / PRECISION) /
              (pool.effective_token_reserve + pos.size * f / PRECISION)) *
            (pool.effective_token_reserve + pos.size * f / PRECISION) ≤
            U128MAX := mul_le_U128MAX (le_trans (Nat.sub_le _ _) hx64) hupd1
        have hres : Except.map (fun r => r.2) (handle_close_position pool pos) =
            .ok ((pool.effective_sol_reserve * (pos.size * f / PRECISION) -
              pos.delta_k * f / PRECISION) /
              (pool.effective_token_reserve + pos.size * f / PRECISION)) := by
          simp [handle_close_position, hf, cAdd, cMul, cDiv, cSub, requireE,
            ok_bind, error_bind, pure_bind_ok, pureE, throwE, throw_bind,
            map_ok_eq, map_error_eq,
            hP0, hs128, hdk128, hL, hmul1, hden128, hdennz, hpaypos,
            hpay64, hS64n, hupd1, hupd2, hupd3, hpayX, hkmul,
            if_neg (Nat.not_le.mpr h1)]
          rw [if_neg (show ¬(pos.delta_k * f / PRECISION <
              pool.effective_sol_reserve * (pos.size * f / PRECISION) →
              pool.effective_sol_reserve * (pos.size * f / PRECISION) -
                pos.delta_k * f / PRECISION = 0) from fun hc => hnum0 (hc h1))]
          rfl
        refine ⟨⟨fun heq => ?_, fun hcon => ?_⟩, fun _ _ => hres⟩
        · rw [heq, map_error_eq] at hres
          exact Except.noConfusion hres
        · rcases hcon with hcon | hcon
          · omega
          · exact absurd hcon h2
  · simp only [hL, Bool.not_eq_true, Bool.false_eq_true, if_false] at hupd ⊢
    obtain ⟨hupd1, hupd2, hupd3⟩ := hupd
    have hmul1 : pos.size * f / PRECISION * pool.effective_token_reserve ≤
        U128MAX := mul_le_U128MAX hs64 hy64
    by_cases h1 : pos.size * f / PRECISION * pool.effective_token_reserve ≤
        pos.delta_k * f / PRECISION
    · have hres : handle_close_position pool pos = .error .PositionNotClosable := by
        simp [handle_close_position, hf, cAdd, cMul, cDiv, cSub, requireE,
          ok_bind, error_bind, pure_bind_ok, pureE, throwE, throw_bind,
          hP0, hs128, hdk128, hL, h1, hmul1]
      rw [hres]
      exact ⟨by simp [h1],
        fun hcon _ => absurd (Nat.lt_of_lt_of_le hcon h1) (Nat.lt_irrefl _)⟩
    · push_neg at h1
      have hSpos : 0 < pos.size * f / PRECISION := by
        rcases Nat.eq_zero_or_pos (pos.size * f / PRECISION) with h0 | h0
        · rw [h0, Nat.zero_mul] at h1
          exact absurd h1 (Nat.not_lt_zero _)
        · exact h0
      have hnum0 : ¬(pos.size * f / PRECISION * pool.effective_token_reserve -
          pos.delta_k * f / PRECISION = 0) := Nat.sub_ne_zero_of_lt h1
      have hden128 : pool.effective_sol_reserve + pos.size * f / PRECISION ≤
          U128MAX := by
        have : U64MAX ≤ U128MAX := by norm_num [U64MAX, U128MAX]
        omega
      have hdennz : ¬(pool.effective_sol_reserve + pos.size * f / PRECISION = 0) := by
        omega
      have hpayY : (pos.size * f / PRECISION * pool.effective_token_reserve -
          pos.delta_k * f / PRECISION) /
          (pool.effective_sol_reserve + pos.size * f / PRECISION) ≤
          pool.effective_token_reserve := by
        refine Nat.div_le_of_le_mul ?_
        calc pos.size * f / PRECISION * pool.effective_token_reserve -
            pos.delta_k * f / PRECISION ≤
            pos.size * f / PRECISION * pool.effective_token_reserve :=
            Nat.sub_le _ _
          _ ≤ (pool.effective_sol_reserve + pos.size * f / PRECISION) *
              pool.effective_token_reserve :=
            Nat.mul_le_mul_right _ (Nat.le_add_left _ _)
      by_cases h2 : (pos.size * f / PRECISION * pool.effective_token_reserve -
          pos.delta_k * f / PRECISION) /
          (pool.effective_sol_reserve + pos.size * f / PRECISION) = 0
      · have hres : handle_close_position pool pos = .error .PositionNotClosable := by
          simp [handle_close_position, hf, cAdd, cMul, cDiv, cSub, requireE,
            ok_bind, error_bind, pure_bind_ok, pureE, throwE, throw_bind,
            hP0, hs128, hdk128, hL, hmul1, hden128, hdennz, h2,
            if_neg (Nat.not_le.mpr h1)]
        rw [hres]
        exact ⟨by simp [h2], fun _ hcon => absurd h2 (Nat.pos_iff_ne_zero.mp hcon)⟩
      · have hpaypos : 0 < (pos.size * f / PRECISION *
            pool.effective_token_reserve - pos.delta_k * f / PRECISION) /
            (pool.effective_sol_reserve + pos.size * f / PRECISION) :=
          Nat.pos_of_ne_zero h2
        have hpay64 : ¬(U64MAX < (pos.size * f / PRECISION *
            pool.effective_token_reserve - pos.delta_k * f / PRECISION) /
            (pool.effective_sol_reserve + pos.size * f / PRECISION)) :=
          Nat.not_lt.mpr (le_trans hpayY hy64)
        have hS64n : ¬(U64MAX < pos.size * f / PRECISION) := Nat.not_lt.mpr hs64
        have hkmul : (pool.effective_sol_reserve + pos.size * f / PRECISION) *
            (pool.effective_token_reserve -
              (pos.size * f / PRECISION * pool.effective_token_reserve -
                pos.delta_k * f / PRECISION) /
                (pool.effective_sol_reserve + pos.size * f / PRECISION)) ≤
            U128MAX := mul_le_U128MAX hupd1 (le_trans (Nat.sub_le _ _) hy64)
        have hres : Except.map (fun r => r.2) (handle_close_position pool pos) =
            .ok ((pos.size * f / PRECISION * pool.effective_token_reserve -
              pos.delta_k * f / PRECISION) /
              (pool.effective_sol_reserve + pos.size * f / PRECISION)) := by
          simp [handle_close_position, hf, cAdd, cMul, cDiv, cSub, requireE,
            ok_bind, error_bind, pure_bind_ok, pureE, throwE, throw_bind,
            map_ok_eq, map_error_eq,
            hP0, hs128, hdk128, hL, hmul1, hden128, hdennz, hpaypos,
            hpay64, hS64n, hupd1, hupd2, hupd3, hpayY, hkmul,
            if_neg (Nat.not_le.mpr h1)]
          rw [if_neg (show ¬(pos.delta_k * f / PRECISION <
              pos.size * f / PRECISION * pool.effective_token_reserve →
              pos.size * f / PRECISION * pool.effective_token_reserve -
                pos.delta_k * f / PRECISION = 0) from fun hc => hnum0 (hc h1))]
          simp [hupd2, ok_bind, map_ok_eq]
        refine ⟨⟨fun heq => ?_, fun hcon => ?_⟩, fun _ _ => hres⟩
        · rw [heq, map_error_eq] at hres
          exact Except.noConfusion hres
        · rcases hcon with hcon | hcon
          · exact absurd (Nat.lt_of_lt_of_le h1 hcon) (Nat.lt_irrefl _)
          · exact absurd hcon h2

/-- Counterexample for C6 as stated: with effective reserves `(1000, 1000)`
and a long position of effective size `10` and effective `Δk = 9990`, the
payout numerator `1000·10 − 9990 = 10` is strictly positive, yet the floor
payout is `10/1010 = 0` and the close fails with `PositionNotClosable` — so
"fails exactly when the numerator is ≤ 0" is wrong. -/
theorem close_position_positive_numerator_still_fails :
    handle_close_position ⟨1000, 1000, 1000, 1000, 9990, 0, 0, 0, 0, false, 429496, 10⟩
      ⟨true, 1, 10, 10, 9990, 0, 0⟩ = .error .PositionNotClosable ∧
    0 < 1000 * 10 - 9990 :=
  ⟨by decide, by norm_num⟩

/-- Witness for the amended C6 at the post-S3 state: pool
`(10100, 10000, 10100, 9757)`, long position of size `243`,
`Δk = 1454300`, zero elapsed funding; the close pays exactly
`(10100·243 − 1454300)/10000 = 100`. -/
theorem handle_close_position_payout_characterization_witness :
    (handle_close_position ⟨10100, 10000, 10100, 9757, 1454300, 0, 0, 0, 0, false, 429496, 10⟩
        ⟨true, 100, 25, 243, 1454300, 0, 7⟩ = .error .PositionNotClosable ↔
      10100 * 243 ≤ 1454300 ∨ (10100 * 243 - 1454300) / 10000 = 0) ∧
    (1454300 < 10100 * 243 → 0 < (10100 * 243 - 1454300) / 10000 →
      Except.map (fun r => r.2)
        (handle_close_position ⟨10100, 10000, 10100, 9757, 1454300, 0, 0, 0, 0, false, 429496, 10⟩
          ⟨true, 100, 25, 243, 1454300, 0, 7⟩) =
        .ok ((10100 * 243 - 1454300) / 10000)) :=
  handle_close_position_payout_characterization
    ⟨10100, 10000, 10100, 9757, 1454300, 0, 0, 0, 0, false, 429496, 10⟩
    ⟨true, 100, 25, 243, 1454300, 0, 7⟩ (2 ^ 32) 243 1454300 (10100 * 243) 10000
    (by decide) (by decide) (by decide) (by decide) (by decide) (by decide)
    (by decide) (by decide) (by decide) (by decide) (by decide)


/-- One Newton step never goes below the integer square root (AM–GM). -/
theorem sqrt_le_newton_step (n x : Nat) (hx : 0 < x) :
    Nat.sqrt n ≤ (x + n / x) / 2 := by
  rw [Nat.le_div_iff_mul_le (by norm_num : 0 < 2)]
  by_cases hcase : x ≤ 2 * Nat.sqrt n
  · have hkey : (2 * Nat.sqrt n - x) * x ≤ n := by
      have hs := Nat.sqrt_le n
      zify [hcase]
      nlinarith [sq_nonneg ((x : Int) - Nat.sqrt n)]
    have hdiv : 2 * Nat.sqrt n - x ≤ n / x :=
      (Nat.le_div_iff_mul_le hx).mpr hkey
    omega
  · push_neg at hcase
    calc Nat.sqrt n * 2 ≤ x := by omega
      _ ≤ x + n / x := Nat.le_add_right _ _

/-- If `x` strictly overshoots the square root, the Newton step strictly
decreases. -/
theorem newton_step_lt (n x : Nat) (hx : 0 < x) (hbig : n < x * x) :
    (x + n / x) / 2 < x := by
  have h1 : n / x < x := (Nat.div_lt_iff_lt_mul hx).mpr hbig
  omega

/-- The fueled Newton loop computes `Nat.sqrt` whenever it starts at or above
the root with enough fuel. -/
theorem integer_sqrt_loop_eq (n : Nat) (hn : 0 < n) :
    ∀ fuel x, Nat.sqrt n ≤ x → 0 < x → x ≤ fuel →
      integer_sqrt_loop n fuel x = Nat.sqrt n := by
  intro fuel
  induction fuel with
  | zero =>
    intro x _ hx hf
    omega
  | succ fuel ih =>
    intro x hs hx hf
    have hspos : 0 < Nat.sqrt n := Nat.sqrt_pos.mpr hn
    simp only [integer_sqrt_loop]
    by_cases hy : (x + n / x) / 2 < x
    · rw [if_pos hy]
      exact ih _ (sqrt_le_newton_step n x hx)
        (Nat.lt_of_lt_of_le hspos (sqrt_le_newton_step n x hx)) (by omega)
    · rw [if_neg hy]
      rcases Nat.lt_or_ge (Nat.sqrt n) x with hlt | hge
      · have hbig : n < x * x := Nat.sqrt_lt.mp hlt
        exact absurd (newton_step_lt n x hx hbig) hy
      · omega

/-- `integer_sqrt` agrees with `Nat.sqrt`: Newton's method from `n/2 + 1`
computes the floor integer square root. -/
theorem integer_sqrt_eq_sqrt (n : Nat) : integer_sqrt n = Nat.sqrt n := by
  unfold integer_sqrt
  split
  · rename_i h
    rw [h]
    rfl
  · rename_i h
    have hn : 0 < n := Nat.pos_of_ne_zero h
    have hstart : Nat.sqrt n ≤ n / 2 + 1 := by
      rcases Nat.lt_or_ge (Nat.sqrt n) 2 with hs | hs
      · omega
      · have h2s : 2 * Nat.sqrt n ≤ Nat.sqrt n * Nat.sqrt n :=
          Nat.mul_le_mul_right _ hs
        have := Nat.sqrt_le n
        have hdiv : Nat.sqrt n ≤ n / 2 :=
          (Nat.le_div_iff_mul_le (by norm_num : 0 < 2)).mpr (by omega)
        omega
    exact integer_sqrt_loop_eq n hn _ _ hstart (by omega) (le_refl _)

set_option maxHeartbeats 3000000 in
/-- C4: after a successful active-curve buy the curve is Graduated exactly
when, on the updated counters, `sol_raised ≥ target_sol` or
`tokens_sold ≥ target_tokens_sold`; on graduation the pool is seeded with
`sol_reserve = effective_sol_reserve = sol_raised` and
`token_reserve = effective_token_reserve = target_tokens_sold/2`, the EMA is
initialized to `sol_reserve·PRICE_PRECISION/token_reserve` and marked
initialized, and the residual refund is returned to the buyer (`sol_raised`
grows by exactly `amount_in − refund`); a successful sell never changes the
status. -/
theorem swap_on_curve_graduation_characterization (curve : BondingCurve)
    (pool : Pool) (a mo : Nat) (ts : Int) (hact : curve.status = ACTIVE) :
    (∀ c' p' out r,
      handle_swap_on_curve curve pool a mo true ts = .ok (c', p', out, r) →
      (c'.bonding_target_sol = curve.bonding_target_sol ∧
        c'.bonding_target_tokens_sold = curve.bonding_target_tokens_sold) ∧
      (c'.status = GRADUATED ↔
        (c'.bonding_target_sol ≤ c'.sol_raised_on_curve ∨
          c'.bonding_target_tokens_sold ≤ c'.tokens_sold_on_curve)) ∧
      (c'.status = GRADUATED →
        p'.sol_reserve = c'.sol_raised_on_curve ∧
        p'.effective_sol_reserve = c'.sol_raised_on_curve ∧
        p'.token_reserve = c'.bonding_target_tokens_sold / 2 ∧
        p'.effective_token_reserve = c'.bonding_target_tokens_sold / 2 ∧
        p'.ema_price = p'.sol_reserve * Pool.PRICE_PRECISION / p'.token_reserve ∧
        p'.ema_initialized = true) ∧
      (r ≤ a ∧ c'.sol_raised_on_curve = curve.sol_raised_on_curve + (a - r))) ∧
    (∀ c' p' out r,
      handle_swap_on_curve curve pool a mo false ts = .ok (c', p', out, r) →
      c'.status = curve.status) := by
  have hactT : curve.is_active = true := by
    simp [BondingCurve.is_active, hact, ACTIVE]
  constructor
  · intro c' p' out r h
    unfold handle_swap_on_curve graduate_to_amm at h
    simp only [hactT, requireE, cAdd, cMul, cDiv, cSub, ok_bind, error_bind,
      pure_bind_ok, pureE, throwE, throw_bind, if_true, ite_true,
      eq_self_iff_true, Bool.false_eq_true, if_false, ite_false] at h
    split at h
    rotate_left
    · exact Except.noConfusion h
    cases hout : curve.calculate_tokens_out_for_sol a with
    | error e =>
      simp only [hout, error_bind] at h
      exact Except.noConfusion h
    | ok t0 =>
      simp only [hout, ok_bind] at h
      iterate 22
        all_goals (first
          | exact Except.noConfusion h
          | (split at h <;>
              try simp only [ok_bind, error_bind, pure_bind_ok, pureE] at h)
          | skip)
      all_goals (
        injection h with h1
        injection h1 with hc h2
        injection h2 with hp h3
        injection h3 with ho hr
        subst hc
        subst hp
        subst ho
        subst hr)
      all_goals dsimp only
      all_goals (
        refine ⟨⟨rfl, rfl⟩, ?_⟩
        constructor
        · simp_all [ACTIVE, GRADUATED]
        constructor
        · intro hgrad
          first
          | exact ⟨rfl, rfl, rfl, rfl, rfl, rfl⟩
          | (exact absurd hgrad (by simp_all [ACTIVE, GRADUATED]))
        · constructor
          · omega
          · omega)
  · intro c' p' out r h
    unfold handle_swap_on_curve at h
    simp only [hactT, requireE, cAdd, cMul, cDiv, cSub, ok_bind, error_bind,
      pure_bind_ok, pureE, throwE, throw_bind, if_true, ite_true,
      eq_self_iff_true, Bool.false_eq_true, if_false, ite_false] at h
    split at h
    rotate_left
    · exact Except.noConfusion h
    cases hout : curve.calculate_sol_out_for_tokens a with
    | error e =>
      simp only [hout, error_bind] at h
      exact Except.noConfusion h
    | ok so =>
      simp only [hout, ok_bind] at h
      iterate 8
        all_goals (first
          | exact Except.noConfusion h
          | (split at h <;>
              try simp only [ok_bind, error_bind, pure_bind_ok, pureE] at h)
          | skip)
      all_goals (
        injection h with h1
        injection h1 with hc h2
        subst hc)
      all_goals rfl



/-- Witness for C4 on the 200-token/100-lamport launch: buying `100` triggers
graduation and seeds the pool at `(100, 100)`. -/
theorem swap_on_curve_graduation_characterization_witness :
    (∀ c' p' out r,
      handle_swap_on_curve ⟨5000000000000000, 0, 0, 100, 200, 0⟩
          ⟨0, 0, 0, 0, 0, 0, 0, 0, 0, false, 429496, 10⟩ 100 0 true 0 =
        .ok (c', p', out, r) →
      (c'.bonding_target_sol = (100 : Nat) ∧
        c'.bonding_target_tokens_sold = (200 : Nat)) ∧
      (c'.status = GRADUATED ↔
        (c'.bonding_target_sol ≤ c'.sol_raised_on_curve ∨
          c'.bonding_target_tokens_sold ≤ c'.tokens_sold_on_curve)) ∧
      (c'.status = GRADUATED →
        p'.sol_reserve = c'.sol_raised_on_curve ∧
        p'.effective_sol_reserve = c'.sol_raised_on_curve ∧
        p'.token_reserve = c'.bonding_target_tokens_sold / 2 ∧
        p'.effective_token_reserve = c'.bonding_target_tokens_sold / 2 ∧
        p'.ema_price = p'.sol_reserve * Pool.PRICE_PRECISION / p'.token_reserve ∧
        p'.ema_initialized = true) ∧
      (r ≤ 100 ∧ c'.sol_raised_on_curve = 0 + (100 - r))) ∧
    (∀ c' p' out r,
      handle_swap_on_curve ⟨5000000000000000, 0, 0, 100, 200, 0⟩
          ⟨0, 0, 0, 0, 0, 0, 0, 0, 0, false, 429496, 10⟩ 100 0 false 0 =
        .ok (c', p', out, r) →
      c'.status = (0 : Nat)) :=
  swap_on_curve_graduation_characterization ⟨5000000000000000, 0, 0, 100, 200, 0⟩
    ⟨0, 0, 0, 0, 0, 0, 0, 0, 0, false, 429496, 10⟩ 100 0 0 (by decide)

/-- Inversion of a successful `calculate_tokens_out_for_sol` call: the output
is `√(q1² + 2·sol_in·SLOPE_PRECISION/m) − q1` and all intermediates are in
`u128` range. -/
theorem calculate_tokens_out_for_sol_spec (c : BondingCurve) (sol_in t0 : Nat)
    (h : c.calculate_tokens_out_for_sol sol_in = .ok t0) :
    0 < sol_in ∧ 0 < c.bonding_curve_slope_m ∧
    2 * sol_in * BondingCurve.SLOPE_PRECISION ≤ U128MAX ∧
    c.tokens_sold_on_curve * c.tokens_sold_on_curve +
      2 * sol_in * BondingCurve.SLOPE_PRECISION / c.bonding_curve_slope_m ≤
      U128MAX ∧
    t0 = Nat.sqrt (c.tokens_sold_on_curve * c.tokens_sold_on_curve +
      2 * sol_in * BondingCurve.SLOPE_PRECISION / c.bonding_curve_slope_m) -
      c.tokens_sold_on_curve := by
  unfold BondingCurve.calculate_tokens_out_for_sol at h
  simp only [requireE, cAdd, cMul, cDiv, cSub, ok_bind, error_bind,
    pure_bind_ok, pureE, throwE, throw_bind, integer_sqrt_eq_sqrt] at h
  iterate 10
    all_goals (first
      | exact Except.noConfusion h
      | (split at h <;>
          try simp only [ok_bind, error_bind, pure_bind_ok, pureE] at h)
      | skip)
  all_goals injection h with h1
  rename_i h9 h8 h7 h6 h5 h4 h3
  refine ⟨h9, Nat.pos_of_ne_zero h6, h7, h4, ?_⟩
  have hlt : Nat.sqrt (c.tokens_sold_on_curve * c.tokens_sold_on_curve +
      2 * sol_in * BondingCurve.SLOPE_PRECISION / c.bonding_curve_slope_m) <
      2 ^ 64 := by
    rw [Nat.sqrt_lt]
    have : U128MAX < 2 ^ 64 * 2 ^ 64 := by norm_num [U128MAX]
    omega
  rw [← h1]
  exact Nat.mod_eq_of_lt (by omega)


set_option maxHeartbeats 1600000 in
/-- C9: a bonding-curve buy whose quoted `tokens_out` would push `tokens_sold`
past `target_tokens_sold` caps the output at `target − tokens_sold`,
back-solves `sol_spent = m·(target² − q1²)/2/SLOPE_PRECISION ≤ sol_in`,
refunds exactly `sol_in − sol_spent`, advances the counters by `sol_spent`
and the capped output, and (the target being reached) graduates the pool. -/
theorem swap_on_curve_overshoot_caps_and_refunds
    (curve : BondingCurve) (pool : Pool) (a mo t0 ss : Nat) (ts : Int)
    (hact : curve.status = ACTIVE)
    (ht0 : curve.calculate_tokens_out_for_sol a = .ok t0)
    (hna : curve.tokens_sold_on_curve + t0 ≤ U64MAX)
    (hover : curve.bonding_target_tokens_sold < curve.tokens_sold_on_curve + t0)
    (hq1le : curve.tokens_sold_on_curve ≤ curve.bonding_target_tokens_sold)
    (htgt : curve.bonding_target_tokens_sold ≤ U64MAX)
    (ha64 : a ≤ U64MAX)
    (hmd : curve.bonding_curve_slope_m *
      (curve.bonding_target_tokens_sold * curve.bonding_target_tokens_sold -
        curve.tokens_sold_on_curve * curve.tokens_sold_on_curve) ≤ U128MAX)
    (hss : ss = curve.bonding_curve_slope_m *
      (curve.bonding_target_tokens_sold * curve.bonding_target_tokens_sold -
        curve.tokens_sold_on_curve * curve.tokens_sold_on_curve) / 2 /
      BondingCurve.SLOPE_PRECISION)
    (hmo : mo ≤ curve.bonding_target_tokens_sold - curve.tokens_sold_on_curve)
    (hsr : curve.sol_raised_on_curve + ss ≤ U64MAX)
    (hpp : (curve.sol_raised_on_curve + ss) * Pool.PRICE_PRECISION ≤ U128MAX)
    (hlp : ¬(curve.bonding_target_tokens_sold / 2 = 0)) :
    ss ≤ a ∧
    handle_swap_on_curve curve pool a mo true ts =
      .ok ({ curve with
              status := GRADUATED,
              sol_raised_on_curve := curve.sol_raised_on_curve + ss,
              tokens_sold_on_curve := curve.bonding_target_tokens_sold },
        { pool with
            sol_reserve := curve.sol_raised_on_curve + ss,
            effective_sol_reserve := curve.sol_raised_on_curve + ss,
            token_reserve := curve.bonding_target_tokens_sold / 2,
            effective_token_reserve := curve.bonding_target_tokens_sold / 2,
            last_update_timestamp := ts,
            ema_price := (curve.sol_raised_on_curve + ss) * Pool.PRICE_PRECISION /
              (curve.bonding_target_tokens_sold / 2),
            ema_initialized := true },
        curve.bonding_target_tokens_sold - curve.tokens_sold_on_curve,
        a - ss) := by
  subst hss
  obtain ⟨ha0, hm0, h2aS, hsum128, ht0eq⟩ :=
    calculate_tokens_out_for_sol_spec curve a t0 ht0
  have hq1sqrt : curve.tokens_sold_on_curve ≤
      Nat.sqrt (curve.tokens_sold_on_curve * curve.tokens_sold_on_curve +
        2 * a * BondingCurve.SLOPE_PRECISION / curve.bonding_curve_slope_m) :=
    Nat.le_sqrt.mpr (Nat.le_add_right _ _)
  have hsqrtgt : curve.bonding_target_tokens_sold + 1 ≤
      Nat.sqrt (curve.tokens_sold_on_curve * curve.tokens_sold_on_curve +
        2 * a * BondingCurve.SLOPE_PRECISION / curve.bonding_curve_slope_m) := by
    omega
  have hsq := Nat.le_sqrt.mp hsqrtgt
  have hexp : (curve.bonding_target_tokens_sold + 1) *
      (curve.bonding_target_tokens_sold + 1) =
      curve.bonding_target_tokens_sold * curve.bonding_target_tokens_sold +
        2 * curve.bonding_target_tokens_sold + 1 := by ring
  have hq1sq : curve.tokens_sold_on_curve * curve.tokens_sold_on_curve ≤
      curve.bonding_target_tokens_sold * curve.bonding_target_tokens_sold :=
    Nat.mul_le_mul hq1le hq1le
  have hdiff_lt : curve.bonding_target_tokens_sold * curve.bonding_target_tokens_sold -
      curve.tokens_sold_on_curve * curve.tokens_sold_on_curve <
      2 * a * BondingCurve.SLOPE_PRECISION / curve.bonding_curve_slope_m := by
    omega
  have hmterm : curve.bonding_curve_slope_m *
      (2 * a * BondingCurve.SLOPE_PRECISION / curve.bonding_curve_slope_m) ≤
      2 * a * BondingCurve.SLOPE_PRECISION := by
    rw [Nat.mul_comm]
    exact Nat.div_mul_le_self _ _
  have hmdiff : curve.bonding_curve_slope_m *
      (curve.bonding_target_tokens_sold * curve.bonding_target_tokens_sold -
        curve.tokens_sold_on_curve * curve.tokens_sold_on_curve) ≤
      2 * a * BondingCurve.SLOPE_PRECISION :=
    le_trans (Nat.mul_le_mul_left _ (le_of_lt hdiff_lt)) hmterm
  have hssa : curve.bonding_curve_slope_m *
      (curve.bonding_target_tokens_sold * curve.bonding_target_tokens_sold -
        curve.tokens_sold_on_curve * curve.tokens_sold_on_curve) / 2 /
      BondingCurve.SLOPE_PRECISION ≤ a := by
    rw [Nat.div_div_eq_div_mul]
    calc curve.bonding_curve_slope_m *
        (curve.bonding_target_tokens_sold * curve.bonding_target_tokens_sold -
          curve.tokens_sold_on_curve * curve.tokens_sold_on_curve) /
        (2 * BondingCurve.SLOPE_PRECISION) ≤
        2 * a * BondingCurve.SLOPE_PRECISION /
          (2 * BondingCurve.SLOPE_PRECISION) :=
        Nat.div_le_div_right hmdiff
      _ = a := by
        rw [show 2 * a * BondingCurve.SLOPE_PRECISION =
          a * (2 * BondingCurve.SLOPE_PRECISION) from by ring]
        exact Nat.mul_div_cancel a (by norm_num [BondingCurve.SLOPE_PRECISION])
  have hmod : curve.bonding_curve_slope_m *
      (curve.bonding_target_tokens_sold * curve.bonding_target_tokens_sold -
        curve.tokens_sold_on_curve * curve.tokens_sold_on_curve) / 2 /
      BondingCurve.SLOPE_PRECISION % 2 ^ 64 =
      curve.bonding_curve_slope_m *
      (curve.bonding_target_tokens_sold * curve.bonding_target_tokens_sold -
        curve.tokens_sold_on_curve * curve.tokens_sold_on_curve) / 2 /
      BondingCurve.SLOPE_PRECISION := by
    have hU : U64MAX < 2 ^ 64 := by norm_num [U64MAX]
    exact Nat.mod_eq_of_lt (by omega)
  have hactT : curve.is_active = true := by
    simp [BondingCurve.is_active, hact, ACTIVE]
  have hq2 : curve.tokens_sold_on_curve +
      (curve.bonding_target_tokens_sold - curve.tokens_sold_on_curve) =
      curve.bonding_target_tokens_sold := by omega
  have htgt128 : curve.bonding_target_tokens_sold ≤ U128MAX := by
    have : U64MAX ≤ U128MAX := by norm_num [U64MAX, U128MAX]
    omega
  have htgttgt : curve.bonding_target_tokens_sold *
      curve.bonding_target_tokens_sold ≤ U128MAX :=
    mul_le_U128MAX htgt htgt
  have hq164 : curve.tokens_sold_on_curve ≤ U64MAX := le_trans hq1le htgt
  have hq1q1 : curve.tokens_sold_on_curve * curve.tokens_sold_on_curve ≤
      U128MAX := mul_le_U128MAX hq164 hq164
  have h2ne : ¬((2 : Nat) = 0) := by norm_num
  have hSne : ¬(BondingCurve.SLOPE_PRECISION = 0) := by
    norm_num [BondingCurve.SLOPE_PRECISION]
  refine ⟨hssa, ?_⟩
  simp only [handle_swap_on_curve, graduate_to_amm, cAdd, cMul, cDiv, cSub,
    requireE, ok_bind, error_bind, pure_bind_ok, pureE, throwE, throw_bind,
    ha0, hactT, ht0, hna, hover, hq1le, hq2, htgt, htgt128, htgttgt, hq1sq,
    hmd, hmod, hssa, hmo, hsr, hpp, hlp, h2ne, hSne, hq1q1, ha64,
    le_refl, or_true, eq_self_iff_true, not_true_eq_false, not_false_eq_true,
    if_true, if_false, ite_true, ite_false, Bool.false_eq_true]


/-- Witness for C9: buying `150` SOL on the fresh 100-lamport/200-token curve
quotes `244` tokens, caps at the full `200`, back-solves `sol_spent = 100`,
refunds `50`, and graduates the pool at `(100, 100)`. -/
theorem swap_on_curve_overshoot_caps_and_refunds_witness :
    (100 : Nat) ≤ 150 ∧
    handle_swap_on_curve ⟨5000000000000000, 0, 0, 100, 200, 0⟩
        ⟨0, 0, 0, 0, 0, 0, 0, 0, 0, false, 429496, 10⟩ 150 0 true 7 =
      .ok (⟨5000000000000000, 200, 100, 100, 200, 1⟩,
        ⟨100, 100, 100, 100, 0, 0, 0, 7, 18446744073709551616, true, 429496, 10⟩,
        200, 50) := by
  have h := swap_on_curve_overshoot_caps_and_refunds
    ⟨5000000000000000, 0, 0, 100, 200, 0⟩
    ⟨0, 0, 0, 0, 0, 0, 0, 0, 0, false, 429496, 10⟩ 150 0 244 100 7
    (by decide) (by decide) (by decide) (by decide) (by decide) (by decide)
    (by decide) (by decide) (by decide) (by decide) (by decide) (by decide)
    (by decide)
  refine ⟨by norm_num, h.2.trans ?_⟩
  decide


/-- Inversion of a successful `calculate_sol_out_for_tokens` call: the output
is `m·(q1² − (q1 − tokens_in)²)/2/SLOPE_PRECISION`, bounded by the SOL raised. -/
theorem calculate_sol_out_for_tokens_spec (c : BondingCurve) (tin so : Nat)
    (h : c.calculate_sol_out_for_tokens tin = .ok so) :
    0 < tin ∧ tin ≤ c.tokens_sold_on_curve ∧
    so = c.bonding_curve_slope_m *
      (c.tokens_sold_on_curve * c.tokens_sold_on_curve -
        (c.tokens_sold_on_curve - tin) * (c.tokens_sold_on_curve - tin)) / 2 /
      BondingCurve.SLOPE_PRECISION ∧
    so ≤ c.sol_raised_on_curve := by
  unfold BondingCurve.calculate_sol_out_for_tokens at h
  simp only [requireE, cAdd, cMul, cDiv, cSub, ok_bind, error_bind,
    pure_bind_ok, pureE, throwE, throw_bind] at h
  iterate 12
    all_goals (first
      | exact Except.noConfusion h
      | (split at h <;>
          try simp only [ok_bind, error_bind, pure_bind_ok, pureE] at h)
      | skip)
  all_goals injection h with h1
  rename_i h10 h9 h8 h7 h6 h5 h4 h3 h2
  exact ⟨h10, h9, h1.symm, h1 ▸ h2⟩

set_option maxHeartbeats 800000 in
/-- C8 (amended): buying `n` SOL and selling the received tokens straight back
returns `sol_out ≤ n`, but the gap is only bounded by one marginal token's
worth of SOL at the post-buy supply `q2`:
`n ≤ sol_out + m·(2·q2 + 1)/(2·SLOPE_PRECISION) + 1`.  The claimed 1-base-unit
bound fails — see the counterexample. -/
theorem curve_buy_sell_roundtrip_bounds
    (curve : BondingCurve) (n out sol_out : Nat)
    (hbuy : curve.calculate_tokens_out_for_sol n = .ok out)
    (hsell : BondingCurve.calculate_sol_out_for_tokens
      { curve with
          tokens_sold_on_curve := curve.tokens_sold_on_curve + out,
          sol_raised_on_curve := curve.sol_raised_on_curve + n } out = .ok sol_out) :
    sol_out ≤ n ∧
    n ≤ sol_out + curve.bonding_curve_slope_m *
      (2 * (curve.tokens_sold_on_curve + out) + 1) /
      (2 * BondingCurve.SLOPE_PRECISION) + 1 := by
  obtain ⟨hn0, hm0, h2nS, hsum128, houteq⟩ :=
    calculate_tokens_out_for_sol_spec curve n out hbuy
  obtain ⟨ht0, htle, hsoeq, hsole⟩ :=
    calculate_sol_out_for_tokens_spec _ out sol_out hsell
  dsimp only at hsoeq
  have hsub : curve.tokens_sold_on_curve + out - out =
      curve.tokens_sold_on_curve := by omega
  rw [hsub] at hsoeq
  have hq1sqrt : curve.tokens_sold_on_curve ≤
      Nat.sqrt (curve.tokens_sold_on_curve * curve.tokens_sold_on_curve +
        2 * n * BondingCurve.SLOPE_PRECISION / curve.bonding_curve_slope_m) :=
    Nat.le_sqrt.mpr (Nat.le_add_right _ _)
  have hA : curve.tokens_sold_on_curve + out =
      Nat.sqrt (curve.tokens_sold_on_curve * curve.tokens_sold_on_curve +
        2 * n * BondingCurve.SLOPE_PRECISION / curve.bonding_curve_slope_m) := by
    omega
  have hAsq : (curve.tokens_sold_on_curve + out) *
      (curve.tokens_sold_on_curve + out) ≤
      curve.tokens_sold_on_curve * curve.tokens_sold_on_curve +
        2 * n * BondingCurve.SLOPE_PRECISION / curve.bonding_curve_slope_m := by
    rw [hA]
    exact Nat.sqrt_le _
  have hAsq2 : curve.tokens_sold_on_curve * curve.tokens_sold_on_curve +
      2 * n * BondingCurve.SLOPE_PRECISION / curve.bonding_curve_slope_m <
      (curve.tokens_sold_on_curve + out + 1) *
        (curve.tokens_sold_on_curve + out + 1) := by
    rw [hA]
    exact Nat.sqrt_lt.mp (Nat.lt_succ_self _)
  have hexpA : (curve.tokens_sold_on_curve + out + 1) *
      (curve.tokens_sold_on_curve + out + 1) =
      (curve.tokens_sold_on_curve + out) * (curve.tokens_sold_on_curve + out) +
        2 * (curve.tokens_sold_on_curve + out) + 1 := by ring
  have hq1A : curve.tokens_sold_on_curve * curve.tokens_sold_on_curve ≤
      (curve.tokens_sold_on_curve + out) * (curve.tokens_sold_on_curve + out) :=
    Nat.mul_le_mul (Nat.le_add_right _ _) (Nat.le_add_right _ _)
  have hterm_le : (curve.tokens_sold_on_curve + out) *
        (curve.tokens_sold_on_curve + out) -
      curve.tokens_sold_on_curve * curve.tokens_sold_on_curve ≤
      2 * n * BondingCurve.SLOPE_PRECISION / curve.bonding_curve_slope_m := by
    omega
  have hterm_ge : 2 * n * BondingCurve.SLOPE_PRECISION /
        curve.bonding_curve_slope_m ≤
      (curve.tokens_sold_on_curve + out) * (curve.tokens_sold_on_curve + out) -
        curve.tokens_sold_on_curve * curve.tokens_sold_on_curve +
        2 * (curve.tokens_sold_on_curve + out) := by
    omega
  have hmterm : curve.bonding_curve_slope_m *
      (2 * n * BondingCurve.SLOPE_PRECISION / curve.bonding_curve_slope_m) ≤
      2 * n * BondingCurve.SLOPE_PRECISION := by
    rw [Nat.mul_comm]
    exact Nat.div_mul_le_self _ _
  have hmdiff : curve.bonding_curve_slope_m *
      ((curve.tokens_sold_on_curve + out) * (curve.tokens_sold_on_curve + out) -
        curve.tokens_sold_on_curve * curve.tokens_sold_on_curve) ≤
      2 * n * BondingCurve.SLOPE_PRECISION :=
    le_trans (Nat.mul_le_mul_left _ hterm_le) hmterm
  have hS : 0 < 2 * BondingCurve.SLOPE_PRECISION := by
    norm_num [BondingCurve.SLOPE_PRECISION]
  rw [Nat.div_div_eq_div_mul] at hsoeq
  constructor
  · rw [hsoeq]
    calc curve.bonding_curve_slope_m *
        ((curve.tokens_sold_on_curve + out) * (curve.tokens_sold_on_curve + out) -
          curve.tokens_sold_on_curve * curve.tokens_sold_on_curve) /
        (2 * BondingCurve.SLOPE_PRECISION) ≤
        2 * n * BondingCurve.SLOPE_PRECISION /
          (2 * BondingCurve.SLOPE_PRECISION) := Nat.div_le_div_right hmdiff
      _ = n := by
        rw [show 2 * n * BondingCurve.SLOPE_PRECISION =
          n * (2 * BondingCurve.SLOPE_PRECISION) from by ring]
        exact Nat.mul_div_cancel n hS
  · have h4m : curve.bonding_curve_slope_m *
        (2 * n * BondingCurve.SLOPE_PRECISION / curve.bonding_curve_slope_m) ≤
        curve.bonding_curve_slope_m *
          ((curve.tokens_sold_on_curve + out) *
            (curve.tokens_sold_on_curve + out) -
            curve.tokens_sold_on_curve * curve.tokens_sold_on_curve) +
          curve.bonding_curve_slope_m *
            (2 * (curve.tokens_sold_on_curve + out)) := by
      have h := Nat.mul_le_mul_left curve.bonding_curve_slope_m hterm_ge
      rw [Nat.mul_add] at h
      exact h
    have heuc1 := Nat.div_add_mod (2 * n * BondingCurve.SLOPE_PRECISION)
      curve.bonding_curve_slope_m
    have hrem1 := Nat.mod_lt (2 * n * BondingCurve.SLOPE_PRECISION) hm0
    have hdistrib : curve.bonding_curve_slope_m *
        (2 * (curve.tokens_sold_on_curve + out) + 1) =
        curve.bonding_curve_slope_m *
          (2 * (curve.tokens_sold_on_curve + out)) +
          curve.bonding_curve_slope_m := by ring
    rw [hsoeq]
    simp only [BondingCurve.SLOPE_PRECISION] at h4m heuc1 hrem1 hdistrib ⊢
    omega


/-- Witness for the amended C8: on the steep curve `m = 2·10²⁵` (the slope of
a 1-SOL/10-token launch), buying `15000000` lamports yields one token and
selling it back returns `10000000`; the gap `5·10⁶` respects the one-marginal-
token bound `m·3/(2·SLOPE_PRECISION) = 3·10⁷`. -/
theorem curve_buy_sell_roundtrip_bounds_witness :
    (10000000 : Nat) ≤ 15000000 ∧
    (15000000 : Nat) ≤ 10000000 +
      20000000000000000000000000 * (2 * (0 + 1) + 1) /
        (2 * BondingCurve.SLOPE_PRECISION) + 1 :=
  curve_buy_sell_roundtrip_bounds
    ⟨20000000000000000000000000, 0, 0, 1000000000, 10, 0⟩
    15000000 1 10000000 (by decide) (by decide)

/-- Counterexample for C8 as stated: on the active curve of a
1-SOL/10-token launch (slope `2·10²⁵`), buying `n = 15000000` lamports gives
one token without overshoot or graduation, but selling it back returns only
`10000000` — a round-trip loss of `5·10⁶ ≫ 1` base units. -/
theorem curve_roundtrip_gap_exceeds_one_unit :
    BondingCurve.calculate_slope 1000000000 10 =
      .ok 20000000000000000000000000 ∧
    BondingCurve.is_active
      ⟨20000000000000000000000000, 0, 0, 1000000000, 10, 0⟩ = true ∧
    BondingCurve.calculate_tokens_out_for_sol
      ⟨20000000000000000000000000, 0, 0, 1000000000, 10, 0⟩ 15000000 = .ok 1 ∧
    (0 + 1 ≤ 10 ∧ 0 + 15000000 < 1000000000 ∧ 0 + 1 < 10) ∧
    BondingCurve.calculate_sol_out_for_tokens
      ⟨20000000000000000000000000, 0 + 1, 0 + 15000000, 1000000000, 10, 0⟩ 1 =
      .ok 10000000 ∧
    1 < 15000000 - 10000000 := by
  refine ⟨by decide, by decide, by decide, by decide, by decide, by decide⟩


set_option maxHeartbeats 6000000 in
/-- Any successful `close_position` that ends with both `Δk` totals zero has
its effective reserves equal to the real reserves (the snap branch of
`close_position.rs:285`). -/
theorem close_position_zero_debt_snap
    (pool : Pool) (position : Position) (pool' : Pool) (payout : Nat)
    (h : handle_close_position pool position = .ok (pool', payout))
    (hz : pool'.total_delta_k_longs = 0 ∧ pool'.total_delta_k_shorts = 0) :
    pool'.effective_sol_reserve = pool'.sol_reserve ∧
    pool'.effective_token_reserve = pool'.token_reserve := by
  unfold handle_close_position at h
  cases hfc : pool.calculate_position_remaining_factor
      position.entry_funding_accumulator with
  | error e =>
    rw [hfc] at h
    simp only [error_bind] at h
    exact Except.noConfusion h
  | ok f =>
    rw [hfc] at h
    by_cases hL : position.is_long = true
    · simp only [hL, cAdd, cMul, cDiv, cSub, requireE, ok_bind, error_bind,
        pure_bind_ok, pureE, throwE, throw_bind, if_true, ite_true] at h
      iterate 22
        all_goals (first
          | exact Except.noConfusion h
          | (split at h <;>
              try simp only [ok_bind, error_bind, pure_bind_ok, pureE] at h)
          | skip)
      all_goals (
        injection h with h1
        injection h1 with h2 h3
        subst h2
        first
          | exact ⟨rfl, rfl⟩
          | (dsimp only at *
             tauto))
    · simp only [hL, cAdd, cMul, cDiv, cSub, requireE, ok_bind, error_bind,
        pure_bind_ok, pureE, throwE, throw_bind, Bool.not_eq_true,
        Bool.false_eq_true, if_false, ite_false] at h
      iterate 22
        all_goals (first
          | exact Except.noConfusion h
          | (split at h <;>
              try simp only [ok_bind, error_bind, pure_bind_ok, pureE] at h)
          | skip)
      all_goals (
        injection h with h1
        injection h1 with h2 h3
        subst h2
        first
          | exact ⟨rfl, rfl⟩
          | (dsimp only at *
             tauto))

/-- The pool seeded by `graduate_to_amm` has effective reserves equal to the
real reserves on both sides. -/
theorem graduate_to_amm_snap
    (curve : BondingCurve) (pool : Pool) (refund : Nat) (ts : Int)
    (c' : BondingCurve) (p' : Pool) (r : Nat)
    (h : graduate_to_amm curve pool refund ts = .ok (c', p', r)) :
    p'.effective_sol_reserve = p'.sol_reserve ∧
    p'.effective_token_reserve = p'.token_reserve := by
  unfold graduate_to_amm at h
  simp only [cAdd, cMul, cDiv, cSub, requireE, ok_bind, error_bind,
    pure_bind_ok, pureE, throwE, throw_bind] at h
  iterate 6
    all_goals (first
      | exact Except.noConfusion h
      | (split at h <;>
          try simp only [ok_bind, error_bind, pure_bind_ok, pureE] at h)
      | skip)
  all_goals (
    injection h with h1
    injection h1 with h2 h3
    injection h3 with h4 h5
    subst h4
    exact ⟨rfl, rfl⟩)

/-- C7 (amended): the zero-debt snap is enforced by `close_position` (any
successful close ending with both `Δk` totals zero has effective reserves
equal to real reserves) and holds for the pool seeded by `graduate_to_amm`;
but it is not an invariant of every AMM operation — `leverage_swap` breaks
it (see the counterexample trace). -/
theorem zero_debt_snap_after_close_and_graduate :
    (∀ pool position pool' payout,
      handle_close_position pool position = .ok (pool', payout) →
      pool'.total_delta_k_longs = 0 ∧ pool'.total_delta_k_shorts = 0 →
      pool'.effective_sol_reserve = pool'.sol_reserve ∧
      pool'.effective_token_reserve = pool'.token_reserve) ∧
    (∀ curve pool refund ts c' p' r,
      graduate_to_amm curve pool refund ts = .ok (c', p', r) →
      p'.effective_sol_reserve = p'.sol_reserve ∧
      p'.effective_token_reserve = p'.token_reserve) :=
  ⟨fun pool position pool' payout h hz =>
      close_position_zero_debt_snap pool position pool' payout h hz,
    fun curve pool refund ts c' p' r h =>
      graduate_to_amm_snap curve pool refund ts c' p' r h⟩


/-- Witness for the amended C7: closing the S3 long returns the pool to
`(10000, 10000)` with both `Δk` totals zero and snapped reserves, and the
100-lamport/200-token graduation seeds `(100, 100)` with equal effective and
real reserves. -/
theorem zero_debt_snap_after_close_and_graduate_witness :
    ((10000 : Nat) = 10000 ∧ (10000 : Nat) = 10000) ∧
    ((100 : Nat) = 100 ∧ (100 : Nat) = 100) := by
  constructor
  · exact zero_debt_snap_after_close_and_graduate.1
      ⟨10100, 10000, 10100, 9757, 1454300, 0, 0, 0, 0, false, 429496, 10⟩
      ⟨true, 100, 25, 243, 1454300, 0, 7⟩
      ⟨10000, 10000, 10000, 10000, 0, 0, 0, 0, 0, false, 429496, 10⟩ 100
      (by decide) (by decide)
  · exact zero_debt_snap_after_close_and_graduate.2
      ⟨5000000000000000, 200, 100, 100, 200, 0⟩
      ⟨0, 0, 0, 0, 0, 0, 0, 0, 0, false, 429496, 10⟩ 0 0
      ⟨5000000000000000, 200, 100, 100, 200, 1⟩
      ⟨100, 100, 100, 100, 0, 0, 0, 0, 18446744073709551616, true, 429496, 10⟩ 0
      (by decide)

/-- Counterexample for C7 as stated: launch a 100-lamport/200-token curve,
buy `100` to graduate into the `(100, 100)` pool, then open a 10× long with
collateral `100`.  The quote burns `50` effective tokens but `Δk` is exactly
`0`, so both `Δk` totals stay zero while the effective token reserve (`50`)
differs from the real one (`100`): the zero-debt snap is not an invariant of
every reachable AMM state. -/
theorem zero_debt_snap_violated_by_leverage_swap :
    handle_launch_on_curve 200 100 200 0 =
      .ok (⟨5000000000000000, 0, 0, 100, 200, 0⟩,
        ⟨0, 0, 0, 0, 0, 0, 0, 0, 0, false, 429496, 10⟩) ∧
    handle_swap_on_curve ⟨5000000000000000, 0, 0, 100, 200, 0⟩
        ⟨0, 0, 0, 0, 0, 0, 0, 0, 0, false, 429496, 10⟩ 100 0 true 0 =
      .ok (⟨5000000000000000, 200, 100, 100, 200, 1⟩,
        ⟨100, 100, 100, 100, 0, 0, 0, 0, 18446744073709551616, true, 429496, 10⟩,
        200, 0) ∧
    handle_leverage_swap
        ⟨100, 100, 100, 100, 0, 0, 0, 0, 18446744073709551616, true, 429496, 10⟩
        100 0 10 0 true =
      .ok (⟨200, 100, 200, 50, 0, 0, 0, 0, 18446744073709551616, true, 429496, 10⟩,
        ⟨true, 100, 10, 50, 0, 0, 0⟩) ∧
    (let p : Pool :=
      ⟨200, 100, 200, 50, 0, 0, 0, 0, 18446744073709551616, true, 429496, 10⟩
     p.total_delta_k_longs = 0 ∧ p.total_delta_k_shorts = 0 ∧
     p.effective_token_reserve ≠ p.token_reserve) := by
  refine ⟨by decide, by decide, by decide, by decide⟩

end Facemelt

namespace Whiplash

set_option maxHeartbeats 1600000 in
/-- C2 (amended): the liquidation gate compares the expected payout to the
threshold `eff_Δk·105/100 / reserve` (not to 5% of the gross counter-swap
value): with the funding update pinned, `PositionNotLiquidatable` is raised
exactly when `threshold < payout`; otherwise the call settles, paying the
liquidator `eff_size − ⌈eff_Δk/reserve⌉`.  An underwater position
(`reserve·eff_size ≤ eff_Δk`) has payout `0` and therefore always passes the
gate (it IS liquidatable), contrary to the claim. -/
theorem handle_liquidate_threshold_characterization
    (pool0 pool : Pool) (position : Position) (ts : Int)
    (s dk pay th rest : Nat)
    (hupd : pool0.update_funding_accumulators ts = .ok pool)
    (hidxle : position.entry_funding_rate_index ≤
      pool.cumulative_funding_rate_index)
    (hs : s = position.size - position.size *
      (pool.cumulative_funding_rate_index - position.entry_funding_rate_index) /
      INDEX_PRECISION)
    (hdk : dk = position.delta_k - position.delta_k *
      (pool.cumulative_funding_rate_index - position.entry_funding_rate_index) /
      INDEX_PRECISION)
    (hpay : pay = if (if position.is_long then pool.lamports * s
        else s * pool.token_y_amount) ≤ dk then 0
      else ((if position.is_long then pool.lamports * s
        else s * pool.token_y_amount) - dk) /
        (if position.is_long then pool.token_y_amount + s else pool.lamports + s))
    (hth : th = dk * 105 / 100 /
      (if position.is_long then pool.lamports else pool.token_y_amount))
    (hrest : rest = (dk +
      (if position.is_long then pool.lamports else pool.token_y_amount) - 1) /
      (if position.is_long then pool.lamports else pool.token_y_amount))
    (hr1 : position.size *
      (pool.cumulative_funding_rate_index - position.entry_funding_rate_index) ≤
      U128MAX)
    (hsred : position.size *
      (pool.cumulative_funding_rate_index - position.entry_funding_rate_index) /
      INDEX_PRECISION ≤ position.size)
    (hr2 : position.delta_k *
      (pool.cumulative_funding_rate_index - position.entry_funding_rate_index) ≤
      U128MAX)
    (hdkred : position.delta_k *
      (pool.cumulative_funding_rate_index - position.entry_funding_rate_index) /
      INDEX_PRECISION ≤ position.delta_k)
    (hprod128 : (if position.is_long then pool.lamports * s
      else s * pool.token_y_amount) ≤ U128MAX)
    (hden128 : (if position.is_long then pool.token_y_amount + s
      else pool.lamports + s) ≤ U128MAX)
    (hdennz : ¬((if position.is_long then pool.token_y_amount + s
      else pool.lamports + s) = 0))
    (h105 : dk * 105 ≤ U128MAX)
    (hres0 : ¬((if position.is_long then pool.lamports
      else pool.token_y_amount) = 0))
    (hs64 : s ≤ U64MAX)
    (ha1 : dk + (if position.is_long then pool.lamports
      else pool.token_y_amount) ≤ U128MAX)
    (hrest64 : rest ≤ U64MAX)
    (hrestle : rest ≤ s)
    (hty : if position.is_long then
        pool.token_y_amount + rest ≤ U64MAX ∧
        s - rest ≤ pool.token_y_amount + rest ∧
        position.leveraged_token_amount ≤ pool.leveraged_token_y_amount
      else
        pool.lamports + rest ≤ U64MAX ∧
        s - rest ≤ pool.lamports + rest ∧
        position.leveraged_token_amount ≤ pool.leveraged_sol_amount) :
    (th < pay → handle_liquidate pool0 position ts =
      .error .PositionNotLiquidatable) ∧
    (pay ≤ th → Except.map (fun r => r.2) (handle_liquidate pool0 position ts) =
      .ok (pay, s - rest)) ∧
    ((if position.is_long then pool.lamports * s
      else s * pool.token_y_amount) ≤ dk → pay = 0) := by
  have hIP : ¬(INDEX_PRECISION = 0) := by norm_num [INDEX_PRECISION]
  have h100 : ¬((100 : Nat) = 0) := by norm_num
  have hdkle : dk ≤ position.delta_k := by rw [hdk]; exact Nat.sub_le _ _
  subst hs hdk hpay hth hrest
  by_cases hL : position.is_long = true
  · simp only [hL, eq_self_iff_true, if_true, ite_true] at hprod128 hden128 hdennz ha1 hres0 hrest64 hrestle hty h105 hdkle ⊢
    obtain ⟨hty1, hty2, hty3⟩ := hty
    have hone : 1 ≤ position.delta_k - position.delta_k *
        (pool.cumulative_funding_rate_index -
          position.entry_funding_rate_index) / INDEX_PRECISION +
        pool.lamports := by omega
    by_cases h1 : pool.lamports * (position.size - position.size *
        (pool.cumulative_funding_rate_index -
          position.entry_funding_rate_index) / INDEX_PRECISION) ≤
        position.delta_k - position.delta_k *
        (pool.cumulative_funding_rate_index -
          position.entry_funding_rate_index) / INDEX_PRECISION
    · refine ⟨fun hlt => ?_, fun hle => ?_, fun _ => ?_⟩
      · rw [if_pos h1] at hlt
        exact absurd hlt (Nat.not_lt_zero _)
      · rw [if_pos h1] at hle ⊢
        simp [handle_liquidate, hupd, cAdd, cMul, cDiv, cSub, requireE,
          ok_bind, error_bind, pure_bind_ok, pureE, throwE, throw_bind,
          map_ok_eq, map_error_eq,
          hidxle, hr1, hsred, hr2, hdkred, hIP, h100, hL, h1,
          hprod128, hden128, hdennz, h105, hres0, hs64, ha1,
          hrest64, hrestle, hdkle, hty1, hty2, hty3, hone,
          Nat.not_lt.mpr hs64, Nat.not_lt.mpr hrest64]
      · rw [if_pos h1]
    · have hq0 : position.delta_k - position.delta_k *
          (pool.cumulative_funding_rate_index -
            position.entry_funding_rate_index) / INDEX_PRECISION ≤
          pool.lamports * (position.size - position.size *
          (pool.cumulative_funding_rate_index -
            position.entry_funding_rate_index) / INDEX_PRECISION) :=
        Nat.le_of_lt (Nat.not_le.mp h1)
      have hq : position.delta_k ≤
          pool.lamports * (position.size - position.size *
          (pool.cumulative_funding_rate_index -
            position.entry_funding_rate_index) / INDEX_PRECISION) +
          position.delta_k * (pool.cumulative_funding_rate_index -
            position.entry_funding_rate_index) / INDEX_PRECISION := by
        omega
      refine ⟨fun hlt => ?_, fun hle => ?_, fun hc => absurd hc h1⟩
      · rw [if_neg h1] at hlt
        simp [handle_liquidate, hupd, cAdd, cMul, cDiv, cSub, requireE,
          ok_bind, error_bind, pure_bind_ok, pureE, throwE, throw_bind,
          hidxle, hr1, hsred, hr2, hdkred, hIP, h100, hL, h1, hq,
          hprod128, hden128, hdennz, h105, hres0,
          if_neg (Nat.not_le.mpr hlt)]
      · rw [if_neg h1] at hle ⊢
        simp [handle_liquidate, hupd, cAdd, cMul, cDiv, cSub, requireE,
          ok_bind, error_bind, pure_bind_ok, pureE, throwE, throw_bind,
          map_ok_eq, map_error_eq,
          hidxle, hr1, hsred, hr2, hdkred, hIP, h100, hL, h1, hq, hone,
          hprod128, hden128, hdennz, h105, hres0, hs64, ha1,
          hrest64, hrestle, hdkle, hty1, hty2, hty3, hle,
          Nat.not_lt.mpr hs64, Nat.not_lt.mpr hrest64]
  · rw [Bool.not_eq_true] at hL
    simp only [hL, Bool.false_eq_true, if_false, ite_false] at hprod128 hden128 hdennz ha1 hres0 hrest64 hrestle hty h105 hdkle ⊢
    obtain ⟨hty1, hty2, hty3⟩ := hty
    have hone : 1 ≤ position.delta_k - position.delta_k *
        (pool.cumulative_funding_rate_index -
          position.entry_funding_rate_index) / INDEX_PRECISION +
        pool.token_y_amount := by omega
    by_cases h1 : (position.size - position.size *
        (pool.cumulative_funding_rate_index -
          position.entry_funding_rate_index) / INDEX_PRECISION) *
        pool.token_y_amount ≤
        position.delta_k - position.delta_k *
        (pool.cumulative_funding_rate_index -
          position.entry_funding_rate_index) / INDEX_PRECISION
    · refine ⟨fun hlt => ?_, fun hle => ?_, fun _ => ?_⟩
      · rw [if_pos h1] at hlt
        exact absurd hlt (Nat.not_lt_zero _)
      · rw [if_pos h1] at hle ⊢
        simp [handle_liquidate, hupd, cAdd, cMul, cDiv, cSub, requireE,
          ok_bind, error_bind, pure_bind_ok, pureE, throwE, throw_bind,
          map_ok_eq, map_error_eq,
          hidxle, hr1, hsred, hr2, hdkred, hIP, h100, hL, h1,
          hprod128, hden128, hdennz, h105, hres0, hs64, ha1,
          hrest64, hrestle, hdkle, hty1, hty2, hty3, hone,
          Nat.not_lt.mpr hs64, Nat.not_lt.mpr hrest64]
      · rw [if_pos h1]
    · have hq0 : position.delta_k - position.delta_k *
          (pool.cumulative_funding_rate_index -
            position.entry_funding_rate_index) / INDEX_PRECISION ≤
          (position.size - position.size *
          (pool.cumulative_funding_rate_index -
            position.entry_funding_rate_index) / INDEX_PRECISION) *
          pool.token_y_amount :=
        Nat.le_of_lt (Nat.not_le.mp h1)
      have hq : position.delta_k ≤
          (position.size - position.size *
          (pool.cumulative_funding_rate_index -
            position.entry_funding_rate_index) / INDEX_PRECISION) *
          pool.token_y_amount +
          position.delta_k * (pool.cumulative_funding_rate_index -
            position.entry_funding_rate_index) / INDEX_PRECISION := by
        omega
      refine ⟨fun hlt => ?_, fun hle => ?_, fun hc => absurd hc h1⟩
      · rw [if_neg h1] at hlt
        simp [handle_liquidate, hupd, cAdd, cMul, cDiv, cSub, requireE,
          ok_bind, error_bind, pure_bind_ok, pureE, throwE, throw_bind,
          hidxle, hr1, hsred, hr2, hdkred, hIP, h100, hL, h1, hq,
          hprod128, hden128, hdennz, h105, hres0,
          if_neg (Nat.not_le.mpr hlt)]
      · rw [if_neg h1] at hle ⊢
        simp [handle_liquidate, hupd, cAdd, cMul, cDiv, cSub, requireE,
          ok_bind, error_bind, pure_bind_ok, pureE, throwE, throw_bind,
          map_ok_eq, map_error_eq,
          hidxle, hr1, hsred, hr2, hdkred, hIP, h100, hL, h1, hq, hone,
          hprod128, hden128, hdennz, h105, hres0, hs64, ha1,
          hrest64, hrestle, hdkle, hty1, hty2, hty3, hle,
          Nat.not_lt.mpr hs64, Nat.not_lt.mpr hrest64]

/-- Witness for the amended C2: on the `(1000, 1000)` pool a long of effective
size `500` and `Δk = 400000` has payout `66 ≤ threshold 420`; liquidation
settles and pays the liquidator `100`. -/
theorem handle_liquidate_threshold_characterization_witness :
    ((420 : Nat) < 66 →
      handle_liquidate ⟨1000, 0, 1000, 0, 100, 0, 0, 400000, 0, 0, 0⟩
        ⟨true, 1, 10, 0, 500, 400000, 0, 100, 0⟩ 0 =
        .error .PositionNotLiquidatable) ∧
    ((66 : Nat) ≤ 420 →
      Except.map (fun r => r.2)
        (handle_liquidate ⟨1000, 0, 1000, 0, 100, 0, 0, 400000, 0, 0, 0⟩
          ⟨true, 1, 10, 0, 500, 400000, 0, 100, 0⟩ 0) = .ok (66, 500 - 400)) ∧
    (1000 * 500 ≤ 400000 → (66 : Nat) = 0) :=
  handle_liquidate_threshold_characterization
    ⟨1000, 0, 1000, 0, 100, 0, 0, 400000, 0, 0, 0⟩
    ⟨1000, 0, 1000, 0, 100, 0, 0, 400000, 0, 0, 0⟩
    ⟨true, 1, 10, 0, 500, 400000, 0, 100, 0⟩ 0
    500 400000 66 420 400
    (by decide) (by decide) (by decide) (by decide) (by decide) (by decide)
    (by decide) (by decide) (by decide) (by decide) (by decide) (by decide)
    (by decide) (by decide) (by decide) (by decide) (by decide) (by decide)
    (by decide) (by decide) (by decide)

/-- Counterexample for C2 as stated: on the `(1000, 1000)` pool, liquidating
the `Δk = 400000` long succeeds with payout `66`, yet the gross counter-swap
value of its size `500` is `333` and `66 > 5%·333 = 16`; and the underwater
variant (`Δk = 500000 ≥ 1000·500`, payout `0`) is also liquidated
successfully rather than rejected. -/
theorem liquidate_violates_five_percent_and_underwater :
    Except.map (fun r => r.2)
      (handle_liquidate ⟨1000, 0, 1000, 0, 100, 0, 0, 400000, 0, 0, 0⟩
        ⟨true, 1, 10, 0, 500, 400000, 0, 100, 0⟩ 0) = .ok (66, 100) ∧
    Pool.calculate_swap_y_to_x_plain 500 1000 0 1000 0 = .ok 333 ∧
    333 * 5 / 100 < 66 ∧
    Except.map (fun r => r.2)
      (handle_liquidate ⟨1000, 0, 1000, 0, 100, 0, 0, 500000, 0, 0, 0⟩
        ⟨true, 1, 10, 0, 500, 500000, 0, 100, 0⟩ 0) = .ok (0, 0) ∧
    1000 * 500 ≤ 500000 := by
  refine ⟨by decide, by decide, by decide, by decide, by decide⟩

end Whiplash
